import Mathlib

/-!
# Verification of the GeoJobs structured-extraction pipeline

A shallow embedding, in Lean 4, of the text-processing core of the GeoJobs
repository (`app/main.py` and `app/extract_simple.py`): the sanitizer, the
heuristic field extractors (salary, role, rotation, location, contacts), the
canonicalizer, the sticky cloud→local model failover, the validator repair
rules and the per-record orchestrator `parse_one`.

Conventions of the embedding:

* Text is `List Char`.  Python `re` patterns are transliterated into a small
  regex AST (`PyRe.RE`) equipped with a backtracking matcher whose preference
  order (leftmost start, ordered alternation, greedy repetition) mirrors
  CPython's `re` engine.  Every repetition occurring in the repository's
  patterns is a repetition of a single character class, so the matcher needs
  no fuel: greedy class repetition is "take the maximal run, then backtrack
  one character at a time".
* Python character classes `\d`, `\s`, `\w` and the `str.lower/upper/title`
  case maps are full-Unicode in CPython; the embedding restricts them to the
  ASCII and Cyrillic ranges, which cover every character the repository's
  vocabularies, patterns and the inputs below use.
* CPython floats: every numeric value reachable in the salary parser is an
  integer below 2^53, where float arithmetic is exact, so salary numbers are
  embedded as `ℚ`/`ℤ`.  The confidence field may be `NaN`, so it is embedded
  as `PyF` (`num q` or `nan`) and Python's `min`/`max`/truthiness semantics
  on floats (comparisons with `NaN` are false; `NaN` is truthy) are embedded
  explicitly.  Python truthiness of `None`/`""`/`0`/empty list is embedded
  at each use site.
* `rapidfuzz.process.extractOne` with the `WRatio` scorer is an external
  library; it is abstracted as an oracle parameter `FuzzOracle` (best match
  and its score), exactly as the HTTP backends are abstracted as outcome
  parameters.
* The ordering of `list({...})` (a CPython set comprehension, used once for
  the equipment field) is implementation-defined; it is modelled as
  first-seen dedup.  No theorem below depends on that field's order.
-/

namespace GeoJobs

/-! ## Python character semantics (restricted to ASCII + Cyrillic) -/

/-- ASCII decimal digit (Python `\d` restricted to ASCII). -/
def isAsciiDigit (c : Char) : Bool := 48 ≤ c.toNat && c.toNat ≤ 57

/-- ASCII letter. -/
def isAsciiAlpha (c : Char) : Bool :=
  (65 ≤ c.toNat && c.toNat ≤ 90) || (97 ≤ c.toNat && c.toNat ≤ 122)

/-- Cyrillic letter (А-Я, а-я, Ё, ё). -/
def isCyr (c : Char) : Bool :=
  (1040 ≤ c.toNat && c.toNat ≤ 1103) || c.toNat = 1025 || c.toNat = 1105

/-- Python `\s` (whitespace), restricted: space, TAB, LF, CR, VT, FF, NBSP. -/
def pyIsSpace (c : Char) : Bool :=
  c = ' ' || c = '\t' || c = '\n' || c = '\r' ||
  c.toNat = 11 || c.toNat = 12 || c.toNat = 0xA0

/-- Python `\w` (word character), restricted to ASCII + Cyrillic.
The class `[\wА-Яа-я_]` of `HASHTAG_RE` coincides with this set under the
restriction. -/
def pyIsWord (c : Char) : Bool :=
  isAsciiAlpha c || isAsciiDigit c || c = '_' || isCyr c

/-- Python `str.lower` on one character (ASCII + Cyrillic). -/
def pyToLower (c : Char) : Char :=
  let n := c.toNat
  if 65 ≤ n && n ≤ 90 then Char.ofNat (n + 32)
  else if 1040 ≤ n && n ≤ 1071 then Char.ofNat (n + 32)
  else if n = 1025 then Char.ofNat 1105
  else c

/-- Python `str.upper` on one character (ASCII + Cyrillic). -/
def pyToUpper (c : Char) : Char :=
  let n := c.toNat
  if 97 ≤ n && n ≤ 122 then Char.ofNat (n - 32)
  else if 1072 ≤ n && n ≤ 1103 then Char.ofNat (n - 32)
  else if n = 1105 then Char.ofNat 1025
  else c

/-- A cased character, for `str.title` (letters of our alphabet). -/
def isCased (c : Char) : Bool := isAsciiAlpha c || isCyr c

/-- Python `str.title`: a cased character is uppercased when the previous
character is not cased, lowercased otherwise. -/
def pyTitleAux : Bool → List Char → List Char
  | _, [] => []
  | prevCased, c :: cs =>
    if isCased c then
      (if prevCased then pyToLower c else pyToUpper c) :: pyTitleAux true cs
    else c :: pyTitleAux false cs

def pyTitle (s : List Char) : List Char := pyTitleAux false s

def pyLower (s : List Char) : List Char := s.map pyToLower

def pyUpper (s : List Char) : List Char := s.map pyToUpper

/-- Strip leading Python whitespace. -/
def pyStripLeft : List Char → List Char
  | [] => []
  | c :: cs => if pyIsSpace c then pyStripLeft cs else c :: cs

/-- Python `str.strip()` (both ends). -/
def pyStrip (s : List Char) : List Char :=
  ((pyStripLeft ((pyStripLeft s).reverse)).reverse)

/-- `pre` is a prefix of `hay`. -/
def startsWith : List Char → List Char → Bool
  | _, [] => true
  | [], _ :: _ => false
  | c :: cs, d :: ds => c = d && startsWith cs ds

/-- Python `needle in hay` on strings (substring containment). -/
def containsSub (hay needle : List Char) : Bool :=
  match hay with
  | [] => needle.isEmpty
  | _ :: rest => startsWith hay needle || containsSub rest needle

/-- Python truthiness of an `Optional[str]` (`None` and `""` are falsy). -/
def pyTruthyOptStr : Option String → Bool
  | none => false
  | some s => !s.isEmpty

/-- `list(dict.fromkeys(l))`: dedup preserving first-seen order. -/
def dedupFSAux (seen : List String) : List String → List String
  | [] => []
  | x :: xs => if x ∈ seen then dedupFSAux seen xs else x :: dedupFSAux (x :: seen) xs

def dedupFS (l : List String) : List String := dedupFSAux [] l

/-- `dict.get k d` over an association list (Python dicts preserve insertion
order; lookup is by key equality). -/
def lookupD (m : List (String × String)) (k : String) (d : String) : String :=
  match m.find? (fun p => p.1 = k) with
  | some p => p.2
  | none => d

/-- Value of a digit string (the value `int`/`float` gives an all-digit
string). -/
def digitsToNat (s : List Char) : Nat :=
  s.foldl (fun acc c => acc * 10 + (c.toNat - 48)) 0

end GeoJobs

namespace PyRe

open GeoJobs

/-! ## A backtracking matcher for the repository's `re` patterns

Captures are recorded most-recent-first; `find?` therefore returns the last
capture of a group, which is CPython's `Match.group` semantics.  All the
repository's patterns capture each group at most once per match. -/

/-- Capture list: `(group index, start, stop)`, most recent first. -/
abbrev Caps := List (Nat × Nat × Nat)

/-- Regex AST.  Every repetition in the repository's patterns repeats a
single character class, so repetition (`crep`, greedy) is over a class. -/
inductive RE where
  | eps : RE
  | cls (p : Char → Bool) : RE
  | crep (p : Char → Bool) (lo : Nat) (hi : Option Nat) : RE
  | seq (a b : RE) : RE
  | alt (a b : RE) : RE
  | grp (n : Nat) (a : RE) : RE
  | bol : RE
  | wordB : RE

def charAt (s : List Char) (i : Nat) : Option Char := s.get? i

def isWordAt (s : List Char) (i : Nat) : Bool :=
  match charAt s i with
  | some c => pyIsWord c
  | none => false

/-- Python `\b`: word-ness changes between positions `i-1` and `i`. -/
def atBoundary (s : List Char) (i : Nat) : Bool :=
  let prev := if i = 0 then false else isWordAt s (i - 1)
  prev != isWordAt s i

/-- Length of the maximal run of `p`-characters. -/
def countLeading (p : Char → Bool) : List Char → Nat
  | [] => 0
  | c :: cs => if p c then countLeading p cs + 1 else 0

/-- Greedy repetition: try `n` characters, then `n-1`, …, down to `lo`. -/
def tryLens (lo : Nat) (k : Nat → Option (Nat × Caps)) : Nat → Option (Nat × Caps)
  | 0 => if lo = 0 then k 0 else none
  | n + 1 =>
    if lo ≤ n + 1 then
      (k (n + 1)).orElse (fun _ => tryLens lo k n)
    else none

/-- The matcher, in continuation-passing style.  `mat s re i cp k` tries to
match `re` at position `i` of `s` with captures `cp`, calling `k` on every
candidate end position in the engine's preference order and returning the
first success — exactly CPython's backtracking order for these patterns. -/
def mat (s : List Char) : RE → Nat → Caps → (Nat → Caps → Option (Nat × Caps)) → Option (Nat × Caps)
  | .eps, i, cp, k => k i cp
  | .cls p, i, cp, k =>
    match charAt s i with
    | some c => if p c then k (i + 1) cp else none
    | none => none
  | .crep p lo hi, i, cp, k =>
    let maxAvail := countLeading p (s.drop i)
    let maxTake := match hi with
      | some h => min maxAvail h
      | none => maxAvail
    tryLens lo (fun n => k (i + n) cp) maxTake
  | .seq a b, i, cp, k => mat s a i cp (fun j cp2 => mat s b j cp2 k)
  | .alt a b, i, cp, k => (mat s a i cp k).orElse (fun _ => mat s b i cp k)
  | .grp n a, i, cp, k => mat s a i cp (fun j cp2 => k j ((n, i, j) :: cp2))
  | .bol, i, cp, k => if i = 0 then k i cp else none
  | .wordB, i, cp, k => if atBoundary s i then k i cp else none

/-- A match object: span and captures. -/
structure M where
  ms : Nat
  me : Nat
  caps : Caps
  deriving DecidableEq, Repr

def matchAt (s : List Char) (re : RE) (i : Nat) : Option M :=
  match mat s re i [] (fun j cp => some (j, cp)) with
  | some (j, cp) => some ⟨i, j, cp⟩
  | none => none

/-- `re.search`: leftmost match (positions `0 … s.length` inclusive). -/
def searchAux (s : List Char) (re : RE) : Nat → Nat → Option M
  | 0, _ => none
  | fuel + 1, i =>
    match matchAt s re i with
    | some m => some m
    | none => if i < s.length then searchAux s re fuel (i + 1) else none

def search (s : List Char) (re : RE) : Option M :=
  searchAux s re (s.length + 1) 0

/-- `re.finditer`: non-overlapping matches, scanning left to right and
resuming after each match's end. -/
def finditerAux (s : List Char) (re : RE) : Nat → Nat → List M
  | 0, _ => []
  | fuel + 1, i =>
    match matchAt s re i with
    | some m =>
      m :: (if i < m.me then finditerAux s re fuel m.me
            else if i < s.length then finditerAux s re fuel (i + 1) else [])
    | none => if i < s.length then finditerAux s re fuel (i + 1) else []

def finditer (s : List Char) (re : RE) : List M :=
  finditerAux s re (s.length + 1) 0

/-- `re.sub` with a constant replacement.  (Every pattern the repository
substitutes matches at least one character; the zero-width fallback below is
never exercised.) -/
def subAux (s : List Char) (re : RE) (r : List Char) : Nat → Nat → List Char
  | 0, i => s.drop i
  | fuel + 1, i =>
    match matchAt s re i with
    | some m =>
      if i < m.me then r ++ subAux s re r fuel m.me
      else
        match charAt s i with
        | some c => r ++ (c :: subAux s re r fuel (i + 1))
        | none => r
    | none =>
      match charAt s i with
      | some c => c :: subAux s re r fuel (i + 1)
      | none => []

def subAll (s : List Char) (re : RE) (r : List Char) : List Char :=
  subAux s re r (s.length + 1) 0

def slice (s : List Char) (a b : Nat) : List Char := (s.drop a).take (b - a)

/-- `m.group(0)`. -/
def M.group0 (m : M) (s : List Char) : List Char := slice s m.ms m.me

/-- `m.group(n)` for `n ≥ 1`: `none` when the group did not participate. -/
def M.group (m : M) (s : List Char) (n : Nat) : Option (List Char) :=
  match m.caps.find? (fun t => t.1 = n) with
  | some t => some (slice s t.2.1 t.2.2)
  | none => none

/-- `m.lastindex`, with CPython's `None` encoded as `0` (groups are 1-based,
and `m.lastindex and …` treats both `None` and `0` as false).  In every
pattern of the repository groups participate in increasing index order, so
the last-matched group is the one with the largest index. -/
def M.lastindex (m : M) : Nat :=
  m.caps.foldl (fun acc t => max acc t.1) 0

/-! ### AST construction helpers -/

/-- Case-sensitive literal. -/
def rlit (w : List Char) : RE :=
  w.foldr (fun c acc => RE.seq (RE.cls (fun d => d = c)) acc) RE.eps

/-- Case-insensitive literal (`re.I`); `w` is given lowercase, as in all the
repository's case-insensitive patterns. -/
def rlitCI (w : List Char) : RE :=
  w.foldr (fun c acc => RE.seq (RE.cls (fun d => pyToLower d = c)) acc) RE.eps

def ropt (a : RE) : RE := RE.alt a RE.eps

def rseq (l : List RE) : RE :=
  match l with
  | [] => RE.eps
  | [a] => a
  | a :: rest => RE.seq a (rseq rest)

/-- Ordered alternation `a|b|…` (CPython tries alternatives left to right). -/
def ralt (l : List RE) : RE :=
  match l with
  | [] => RE.eps
  | [a] => a
  | a :: rest => RE.alt a (ralt rest)

end PyRe

namespace GeoJobs

open PyRe

/-! ## Patterns of `app/main.py`, transliterated

Unused non-capturing groups are written without `grp`; numbered groups keep
their CPython indices. -/

/-- `HASHTAG_RE = r"(?:^|\s)#[\wА-Яа-я_]+"` -/
def hashtagRE : RE :=
  rseq [RE.alt RE.bol (RE.cls pyIsSpace), rlit "#".data, RE.crep pyIsWord 1 none]

/-- `URL_RE = r"https?://\S+"` (case-sensitive) -/
def urlRE : RE :=
  rseq [rlit "http".data, ropt (rlit "s".data), rlit "://".data,
        RE.crep (fun c => !pyIsSpace c) 1 none]

/-- `MULTISPACE_RE = r"[ \t]{2,}"` -/
def multispaceRE : RE := RE.crep (fun c => c = ' ' || c = '\t') 2 none

/-- `r"\n{3,}"` (the newline-collapsing substitution in `sanitize_text`) -/
def nl3RE : RE := RE.crep (fun c => c = '\n') 3 none

/-- `PHONE_RE = r"\+?\d[\d\s\-\.\(\)]{7,}"` -/
def phoneRE : RE :=
  rseq [ropt (rlit "+".data), RE.cls isAsciiDigit,
        RE.crep (fun c => isAsciiDigit c || pyIsSpace c || c = '-' || c = '.' ||
                          c = '(' || c = ')') 7 none]

/-- `EMAIL_RE = r"[A-Za-z0-9._%+-]+@[A-Za-z0-9.-]+\.[A-Za-z]{2,}"` -/
def emailRE : RE :=
  rseq [RE.crep (fun c => isAsciiAlpha c || isAsciiDigit c || c = '.' || c = '_' ||
                          c = '%' || c = '+' || c = '-') 1 none,
        rlit "@".data,
        RE.crep (fun c => isAsciiAlpha c || isAsciiDigit c || c = '.' || c = '-') 1 none,
        rlit ".".data,
        RE.crep isAsciiAlpha 2 none]

/-- `TG_RE = r"@([A-Za-z0-9_]{4,})"` -/
def tgRE : RE :=
  rseq [rlit "@".data,
        RE.grp 1 (RE.crep (fun c => isAsciiAlpha c || isAsciiDigit c || c = '_') 4 none)]

/-- `RE_TAG_RESUME = r"#\s?(резюме|камеральщик)\b"`, `re.I` -/
def tagResumeRE : RE :=
  rseq [rlit "#".data, RE.crep pyIsSpace 0 (some 1),
        RE.grp 1 (ralt [rlitCI "резюме".data, rlitCI "камеральщик".data]),
        RE.wordB]

/-- `RE_TAG_VAC = r"#\s?(вакансия|работа)\b"`, `re.I` -/
def tagVacRE : RE :=
  rseq [rlit "#".data, RE.crep pyIsSpace 0 (some 1),
        RE.grp 1 (ralt [rlitCI "вакансия".data, rlitCI "работа".data]),
        RE.wordB]

/-- `RE_NEED = r"\b(требуется|ищем|в компанию|открыт набор)\b"`, `re.I` -/
def needRE : RE :=
  rseq [RE.wordB,
        RE.grp 1 (ralt [rlitCI "требуется".data, rlitCI "ищем".data,
                        rlitCI "в компанию".data, rlitCI "открыт набор".data]),
        RE.wordB]

/-- `RE_OFFER_SELF = r"\b(предлагаю услуги|готов(а)? выполнить|ищу подработк|ищу удаленк)\b"`, `re.I` -/
def offerSelfRE : RE :=
  rseq [RE.wordB,
        RE.grp 1 (ralt [rlitCI "предлагаю услуги".data,
                        rseq [rlitCI "готов".data, ropt (RE.grp 2 (rlitCI "а".data)),
                              rlitCI " выполнить".data],
                        rlitCI "ищу подработк".data,
                        rlitCI "ищу удаленк".data]),
        RE.wordB]

/-- `RE_SALARY_TRUB = r"(?:з[п/\:]|зарплата|оплата)\s*[:=~-]?\s*(от\s*)?([0-9][0-9\s]{1,})(\+)?\s*(т\.?р|тыс\.?|руб\.?|₽)?"`, `re.I` -/
def salaryTrubRE : RE :=
  rseq [ralt [rseq [rlitCI "з".data,
                    RE.cls (fun c => pyToLower c = 'п' || c = '/' || c = ':')],
              rlitCI "зарплата".data, rlitCI "оплата".data],
        RE.crep pyIsSpace 0 none,
        ropt (RE.cls (fun c => c = ':' || c = '=' || c = '~' || c = '-')),
        RE.crep pyIsSpace 0 none,
        ropt (RE.grp 1 (rseq [rlitCI "от".data, RE.crep pyIsSpace 0 none])),
        RE.grp 2 (rseq [RE.cls isAsciiDigit,
                        RE.crep (fun c => isAsciiDigit c || pyIsSpace c) 1 none]),
        ropt (RE.grp 3 (rlit "+".data)),
        RE.crep pyIsSpace 0 none,
        ropt (RE.grp 4 (ralt [rseq [rlitCI "т".data, ropt (rlit ".".data), rlitCI "р".data],
                              rseq [rlitCI "тыс".data, ropt (rlit ".".data)],
                              rseq [rlitCI "руб".data, ropt (rlit ".".data)],
                              rlit "₽".data]))]

/-- `RE_SALARY_NUM = r"\b([12][0-9]{2}\s?[0-9]{3}|[1-9][0-9]{4,})(?:\s*₽|\s*руб|\s*р\b)?"`, `re.I` -/
def salaryNumRE : RE :=
  rseq [RE.wordB,
        RE.grp 1 (ralt [rseq [RE.cls (fun c => c = '1' || c = '2'),
                              RE.crep isAsciiDigit 2 (some 2),
                              RE.crep pyIsSpace 0 (some 1),
                              RE.crep isAsciiDigit 3 (some 3)],
                        rseq [RE.cls (fun c => 49 ≤ c.toNat && c.toNat ≤ 57),
                              RE.crep isAsciiDigit 4 none]]),
        ropt (ralt [rseq [RE.crep pyIsSpace 0 none, rlit "₽".data],
                    rseq [RE.crep pyIsSpace 0 none, rlitCI "руб".data],
                    rseq [RE.crep pyIsSpace 0 none, rlitCI "р".data, RE.wordB]])]

/-- `RE_PERIOD_MON = r"\b(в\s*мес(яц)?|месяц|/мес)\b"`, `re.I` -/
def periodMonRE : RE :=
  rseq [RE.wordB,
        RE.grp 1 (ralt [rseq [rlitCI "в".data, RE.crep pyIsSpace 0 none, rlitCI "мес".data,
                              ropt (RE.grp 2 (rlitCI "яц".data))],
                        rlitCI "месяц".data, rlitCI "/мес".data]),
        RE.wordB]

/-- `RE_PERIOD_DAY = r"\b(в\s*день|/д|сут(ки)?)\b"`, `re.I` -/
def periodDayRE : RE :=
  rseq [RE.wordB,
        RE.grp 1 (ralt [rseq [rlitCI "в".data, RE.crep pyIsSpace 0 none, rlitCI "день".data],
                        rlitCI "/д".data,
                        rseq [rlitCI "сут".data, ropt (RE.grp 2 (rlitCI "ки".data))]]),
        RE.wordB]

/-- `RE_PERIOD_HR = r"\b(в\s*час|/ч)\b"`, `re.I` -/
def periodHrRE : RE :=
  rseq [RE.wordB,
        RE.grp 1 (ralt [rseq [rlitCI "в".data, RE.crep pyIsSpace 0 none, rlitCI "час".data],
                        rlitCI "/ч".data]),
        RE.wordB]

/-- `RE_PERIOD_SHFT = r"\b(смена|за\s*смену)\b"`, `re.I` -/
def periodShftRE : RE :=
  rseq [RE.wordB,
        RE.grp 1 (ralt [rlitCI "смена".data,
                        rseq [rlitCI "за".data, RE.crep pyIsSpace 0 none, rlitCI "смену".data]]),
        RE.wordB]

/-- The digit-ratio pattern `r"\b\d{1,2}\s*/\s*\d{1,2}\b"` (used in
`rule_enrich`'s `findall` and in `rule_impute_schedule`). -/
def ratioRE : RE :=
  rseq [RE.wordB, RE.crep isAsciiDigit 1 (some 2), RE.crep pyIsSpace 0 none,
        rlit "/".data, RE.crep pyIsSpace 0 none, RE.crep isAsciiDigit 1 (some 2),
        RE.wordB]

/-- `RE_ROTATION = r"\b(вахта|вахтовый)\b|\b(\d{1,2}\s*/\s*\d{1,2})\b"`, `re.I` -/
def rotationRE : RE :=
  RE.alt
    (rseq [RE.wordB, RE.grp 1 (ralt [rlitCI "вахта".data, rlitCI "вахтовый".data]), RE.wordB])
    (rseq [RE.wordB,
           RE.grp 2 (rseq [RE.crep isAsciiDigit 1 (some 2), RE.crep pyIsSpace 0 none,
                           rlit "/".data, RE.crep pyIsSpace 0 none,
                           RE.crep isAsciiDigit 1 (some 2)]),
           RE.wordB])

/-- `RE_LOC = r"\b(астраханск(ая|ой) область|камчатка|мурманск(ая|ой) обл\.?|белокаменка|новый\s+уренгой|москва|московск(ая|ой) область|шерегеш)\b"`, `re.I` -/
def locRE : RE :=
  rseq [RE.wordB,
        RE.grp 1 (ralt
          [rseq [rlitCI "астраханск".data,
                 RE.grp 2 (ralt [rlitCI "ая".data, rlitCI "ой".data]),
                 rlitCI " область".data],
           rlitCI "камчатка".data,
           rseq [rlitCI "мурманск".data,
                 RE.grp 3 (ralt [rlitCI "ая".data, rlitCI "ой".data]),
                 rlitCI " обл".data, ropt (rlit ".".data)],
           rlitCI "белокаменка".data,
           rseq [rlitCI "новый".data, RE.crep pyIsSpace 1 none, rlitCI "уренгой".data],
           rlitCI "москва".data,
           rseq [rlitCI "московск".data,
                 RE.grp 4 (ralt [rlitCI "ая".data, rlitCI "ой".data]),
                 rlitCI " область".data],
           rlitCI "шерегеш".data]),
        RE.wordB]

/-- `RE_CITY_ONLY = r"(уренгой|белокаменка|москва|шерегеш|би[йй]ск|коломна|пермь|троицк|с(е|ё)ргиев\s+посад|щербинка)"`, `re.I` -/
def cityOnlyRE : RE :=
  RE.grp 1 (ralt
    [rlitCI "уренгой".data, rlitCI "белокаменка".data, rlitCI "москва".data,
     rlitCI "шерегеш".data,
     rseq [rlitCI "би".data, RE.cls (fun c => pyToLower c = 'й'), rlitCI "ск".data],
     rlitCI "коломна".data, rlitCI "пермь".data, rlitCI "троицк".data,
     rseq [rlitCI "с".data, RE.grp 2 (ralt [rlitCI "е".data, rlitCI "ё".data]),
           rlitCI "ргиев".data, RE.crep pyIsSpace 1 none, rlitCI "посад".data],
     rlitCI "щербинка".data])

/-- `RE_EQUIP = r"\b(гнсс|gnss|rtk|тахеометр|нивелир|бпла|дрон|сканер)\b"`, `re.I` -/
def equipRE : RE :=
  rseq [RE.wordB,
        RE.grp 1 (ralt [rlitCI "гнсс".data, rlitCI "gnss".data, rlitCI "rtk".data,
                        rlitCI "тахеометр".data, rlitCI "нивелир".data, rlitCI "бпла".data,
                        rlitCI "дрон".data, rlitCI "сканер".data]),
        RE.wordB]

/-- `RE_SKILL = r"\b(autocad|civil\s*3d|qgis|arcgis|metashape|камеральк(а|и))\b"`, `re.I` -/
def skillRE : RE :=
  rseq [RE.wordB,
        RE.grp 1 (ralt [rlitCI "autocad".data,
                        rseq [rlitCI "civil".data, RE.crep pyIsSpace 0 none, rlitCI "3d".data],
                        rlitCI "qgis".data, rlitCI "arcgis".data, rlitCI "metashape".data,
                        rseq [rlitCI "камеральк".data,
                              RE.grp 2 (ralt [rlitCI "а".data, rlitCI "и".data])]]),
        RE.wordB]

/-- The position pattern of `rule_enrich`:
`r"\b(инженер\s*пто|техник-?геодезист|геодезист(\s*камеральщик|\s*полевик)?|оператор\s*бпла|камеральщик)\b"`, `re.I` -/
def positionRE : RE :=
  rseq [RE.wordB,
        RE.grp 1 (ralt
          [rseq [rlitCI "инженер".data, RE.crep pyIsSpace 0 none, rlitCI "пто".data],
           rseq [rlitCI "техник".data, ropt (rlit "-".data), rlitCI "геодезист".data],
           rseq [rlitCI "геодезист".data,
                 ropt (RE.grp 2 (ralt
                   [rseq [RE.crep pyIsSpace 0 none, rlitCI "камеральщик".data],
                    rseq [RE.crep pyIsSpace 0 none, rlitCI "полевик".data]]))],
           rseq [rlitCI "оператор".data, RE.crep pyIsSpace 0 none, rlitCI "бпла".data],
           rlitCI "камеральщик".data]),
        RE.wordB]

/-- The `_rub_hint` pattern `r"(₽|руб|т\.?р|тыс\.?)"`, `re.I` -/
def rubHintRE : RE :=
  RE.grp 1 (ralt [rlit "₽".data, rlitCI "руб".data,
                  rseq [rlitCI "т".data, ropt (rlit ".".data), rlitCI "р".data],
                  rseq [rlitCI "тыс".data, ropt (rlit ".".data)]])

/-- The `_intify` unit pattern `r"(т\.?р|тыс\.?)"`, `re.I` -/
def intifyUnitRE : RE :=
  RE.grp 1 (ralt [rseq [rlitCI "т".data, ropt (rlit ".".data), rlitCI "р".data],
                  rseq [rlitCI "тыс".data, ropt (rlit ".".data)]])

/-! ## Patterns of `app/extract_simple.py` (no `re.I`; the text is lowercased
by `_parse_salary` before matching) -/

/-- `r"(\d[\d\s]{1,9})\s*[–\-]\s*(\d[\d\s]{1,9})\s*(к|k|тыс|т\.р|тр)?"` -/
def rngRE : RE :=
  rseq [RE.grp 1 (rseq [RE.cls isAsciiDigit,
                        RE.crep (fun c => isAsciiDigit c || pyIsSpace c) 1 (some 9)]),
        RE.crep pyIsSpace 0 none,
        RE.cls (fun c => c = '–' || c = '-'),
        RE.crep pyIsSpace 0 none,
        RE.grp 2 (rseq [RE.cls isAsciiDigit,
                        RE.crep (fun c => isAsciiDigit c || pyIsSpace c) 1 (some 9)]),
        RE.crep pyIsSpace 0 none,
        ropt (RE.grp 3 (ralt [rlit "к".data, rlit "k".data, rlit "тыс".data,
                              rseq [rlit "т".data, rlit ".".data, rlit "р".data],
                              rlit "тр".data]))]

/-- `r"(?:от|≈|~)?\s*(\d[\d\s]{2,9})\s*(к|k|тыс|т\.р|тр)?"` -/
def singleRE : RE :=
  rseq [ropt (ralt [rlit "от".data, rlit "≈".data, rlit "~".data]),
        RE.crep pyIsSpace 0 none,
        RE.grp 1 (rseq [RE.cls isAsciiDigit,
                        RE.crep (fun c => isAsciiDigit c || pyIsSpace c) 2 (some 9)]),
        RE.crep pyIsSpace 0 none,
        ropt (RE.grp 2 (ralt [rlit "к".data, rlit "k".data, rlit "тыс".data,
                              rseq [rlit "т".data, rlit ".".data, rlit "р".data],
                              rlit "тр".data]))]

end GeoJobs

namespace GeoJobs

open PyRe

/-! ## Python float semantics for the confidence field -/

/-- A CPython float: a (representable, here exactly-represented) number or
`NaN`. -/
inductive PyF where
  | num (q : ℚ) : PyF
  | nan : PyF
  deriving DecidableEq, Repr

/-- CPython `<` on floats: every comparison with `NaN` is false. -/
def pyLt : PyF → PyF → Bool
  | .num a, .num b => a < b
  | _, _ => false

/-- CPython `min(a, b)`: keep `a` unless `b < a`. -/
def pyMin (a b : PyF) : PyF := if pyLt b a then b else a

/-- CPython `max(a, b)`: keep `a` unless `a < b`. -/
def pyMax (a b : PyF) : PyF := if pyLt a b then b else a

/-- CPython float truthiness: `0.0` is falsy; `NaN` is truthy. -/
def pyTruthyF : PyF → Bool
  | .num q => q ≠ 0
  | .nan => true

/-- The rational `0.3` (= 3/10) in normalized form (numerator/denominator
given directly, so that kernel reduction never has to normalize it). -/
def q0_3 : ℚ := ⟨3, 10, by norm_num, by norm_num⟩

/-- The rational `2.5` (= 5/2) in normalized form. -/
def q2_5 : ℚ := ⟨5, 2, by norm_num, by norm_num⟩

/-- The pydantic-level value of the confidence field: a float, or some
non-float object on which `float()` raises. -/
inductive PyVal where
  | fl (x : PyF) : PyVal
  | nonnum : PyVal
  deriving DecidableEq, Repr

/-- The confidence clamp of `normalize` (main.py lines 259-262):
`parsed.confidence = max(0.0, min(1.0, float(parsed.confidence or 0)))`,
with the `except` branch yielding `0.0`.  On `nonnum` either `float()`
raises (truthy object) or `parsed.confidence or 0` is `0` (falsy object);
both give `0.0`. -/
def normalizeConf : PyVal → PyF
  | .fl x => pyMax (.num 0) (pyMin (.num 1) (if pyTruthyF x then x else .num 0))
  | .nonnum => .num 0

/-! ## The data model (`pydantic` schemas of `app/main.py`) -/

structure Salary where
  min : Option Int := none
  max : Option Int := none
  currency : String := "unknown"
  period : String := "unknown"
  deriving DecidableEq, Repr

structure City where
  city : Option String := none
  region : Option String := none
  country : Option String := none
  deriving DecidableEq, Repr

structure Contact where
  name : Option String := none
  phone : Option String := none
  email : Option String := none
  telegram : Option String := none
  whatsapp : Option String := none
  link : Option String := none
  deriving DecidableEq, Repr

structure SourceInfo where
  platform : Option String := none
  post_id : Option String := none
  author_id : Option String := none
  posted_at : Option String := none
  deriving DecidableEq, Repr

structure ParsedItem where
  role : String := "unknown"
  position : Option String := none
  salary : Salary := {}
  employment : List String := []
  schedule : List String := []
  equipment : List String := []
  skills : List String := []
  experience_years : Option ℚ := none
  city : City := {}
  contact : Contact := {}
  source : SourceInfo := {}
  text_clean : String := ""
  confidence : PyVal := .fl (.num 0)
  errors : List String := []
  deriving DecidableEq, Repr

/-- `Salary._fix_range` (the `model_validator`, main.py lines 119-123):
swap `min`/`max` when both are present (`is not None`) and inverted. -/
def fixRange (s : Salary) : Salary :=
  match s.min, s.max with
  | some a, some b => if b < a then { s with min := some b, max := some a } else s
  | _, _ => s

/-- `ParsedItem.model_validate`: constructing a `ParsedItem` runs the
`Salary` model validator on its salary. -/
def modelValidate (p : ParsedItem) : ParsedItem :=
  { p with salary := fixRange p.salary }

/-! ## Sanitizer (`sanitize_text`, main.py lines 175-183) -/

/-- Split on `'\n'` (keeping empty segments). -/
def splitOnNl : List Char → List (List Char)
  | [] => [[]]
  | c :: cs =>
    if c = '\n' then [] :: splitOnNl cs
    else
      match splitOnNl cs with
      | [] => [[c]]
      | l :: ls => (c :: l) :: ls

def joinNl (ls : List (List Char)) : List Char :=
  (ls.intersperse ['\n']).flatten

/-- `FORWARDED_RE.sub("", t)` with `FORWARDED_RE = r"^переслано от.*$"`,
`re.I | re.M`: under `re.M`, a line starting (case-insensitively) with
"переслано от" is matched in full (`.` does not cross `\n`) and replaced by
the empty string, leaving an empty line. -/
def stripForwardedLine (line : List Char) : List Char :=
  if startsWith (pyLower line) "переслано от".data then [] else line

def forwardedSub (t : List Char) : List Char :=
  joinNl ((splitOnNl t).map stripForwardedLine)

/-- `sanitize_text` (main.py lines 175-183). -/
def sanitize_text (t : String) : String :=
  if t.data.isEmpty then t
  else
    let s := forwardedSub t.data
    let s := subAll s hashtagRE []
    let s := subAll s urlRE []
    let s := subAll s multispaceRE [' ']
    let s := pyStrip (subAll s nl3RE "\n\n".data)
    String.mk s

/-! ## Canonicalizer (`_canon_list` and `normalize`, main.py lines 185-263) -/

def CANON_EMPLOYMENT : List (String × String) :=
  [("полная занятость", "full_time"), ("full time", "full_time"),
   ("full-time", "full_time"), ("частичная", "part_time"),
   ("part time", "part_time"), ("вахта", "rotation"), ("ротация", "rotation"),
   ("смена", "shift"), ("контракт", "contract"), ("стажировка", "internship"),
   ("temporary", "temporary")]

def CANON_SCHEDULE : List (String × String) :=
  [("вахта", "вахта"), ("ротация", "вахта"), ("2/2", "смена"),
   ("15/15", "вахта"), ("30/30", "вахта"), ("60/30", "вахта"),
   ("45/15", "вахта"), ("сменный график", "смена"), ("5/2", "5/2"),
   ("удаленно", "удаленно"), ("полевая", "полевая"), ("гибкий", "гибкий")]

def CANON_EQUIP : List String :=
  ["GNSS", "GPS", "RTK", "Тахеометр", "Нивелир", "Дрон", "БПЛА",
   "Лазерный сканер", "ГИС", "QGIS", "Civil 3D", "Total Station"]

def CANON_SKILLS : List String :=
  ["AutoCAD", "Civil 3D", "Revit", "QGIS", "ArcGIS", "Topo", "CAD",
   "Python", "SQL", "Metashape", "Photogrammetry"]

/-- `rapidfuzz.process.extractOne(v, universe, scorer=fuzz.WRatio)`,
abstracted: the best match and its score (`None` only for an empty
universe). -/
def FuzzOracle := String → List String → Option (String × ℚ)

/-- One iteration body of `_canon_list`: the canonical entry when the best
match clears the threshold of 80, the original token otherwise. -/
def canonToken (fz : FuzzOracle) (univ : List String) (v : String) : String :=
  match fz v univ with
  | some (best, score) => if 80 ≤ score then best else v
  | none => v

/-- The accumulation loop of `_canon_list` (main.py lines 220-233): skip
empty tokens after `strip`, append the canonicalized token, and `break`
once `limit` entries have been accumulated. -/
def canonLoop (fz : FuzzOracle) (univ : List String) (limit : Nat) :
    List String → List String → List String
  | [], out => out
  | v :: rest, out =>
    let v' := String.mk (pyStrip v.data)
    if v'.isEmpty then canonLoop fz univ limit rest out
    else
      let out' := out ++ [canonToken fz univ v']
      if limit ≤ out'.length then out' else canonLoop fz univ limit rest out'

/-- `_canon_list` (main.py lines 220-238): canonicalize, cap at `limit`
(default 8), then dedup preserving first-seen order. -/
def canon_list (fz : FuzzOracle) (values : List String) (univ : List String)
    (limit : Nat := 8) : List String :=
  dedupFS (canonLoop fz univ limit values [])

/-- The `employment`/`schedule` branch of `normalize`: exact lookup of the
lowercased token in the canonical map, then `list(dict.fromkeys(...))`. -/
def canonMapList (m : List (String × String)) (l : List String) : List String :=
  if l.isEmpty then l
  else dedupFS (l.map (fun e =>
    let el := String.mk (pyLower e.data)
    lookupD m el el))

/-- `normalize` (main.py lines 240-263). -/
def normalize (fz : FuzzOracle) (p : ParsedItem) : ParsedItem :=
  let employment := canonMapList CANON_EMPLOYMENT p.employment
  let schedule := canonMapList CANON_SCHEDULE p.schedule
  let equipment := canon_list fz p.equipment CANON_EQUIP
  let skills := canon_list fz p.skills CANON_SKILLS
  let currency :=
    if p.salary.currency ∈ ["RUB", "KZT", "USD", "EUR", "OTHER", "unknown"]
    then p.salary.currency else "OTHER"
  let period :=
    if p.salary.period ∈ ["month", "day", "hour", "shift", "rotation", "project", "unknown"]
    then p.salary.period else "unknown"
  { p with employment := employment, schedule := schedule,
           equipment := equipment, skills := skills,
           salary := { p.salary with currency := currency, period := period },
           confidence := .fl (normalizeConf p.confidence) }

/-! ## Heuristic enricher (`rule_enrich` and helpers, main.py lines 265-371) -/

/-- `_period_from_text` (main.py lines 285-291). -/
def periodFromText (td : List Char) : String :=
  if (search td periodMonRE).isSome then "month"
  else if (search td periodDayRE).isSome then "day"
  else if (search td periodHrRE).isSome then "hour"
  else if (search td periodShftRE).isSome then "shift"
  else if (search td rotationRE).isSome then "rotation"
  else "unknown"

/-- `_rub_hint` (main.py lines 293-294). -/
def rubHint (td : List Char) : String :=
  if (search td rubHintRE).isSome then "RUB" else "unknown"

/-- `_intify` (main.py lines 296-309): strip non-digits, multiply by 1000 on
a thousands unit hint or a bare value under 1000, reject phone-like digit
lengths (10-12) and values outside the 15 000 … 5 000 000 band. -/
def intify (numStr : List Char) (unitHint : List Char) : Option Int :=
  let s := numStr.filter isAsciiDigit
  if s.isEmpty then none
  else
    let val : Int := (digitsToNat s : Int)
    let val :=
      if !unitHint.isEmpty && (search unitHint intifyUnitRE).isSome then val * 1000
      else if val < 1000 then val * 1000
      else val
    if 10 ≤ s.length && s.length ≤ 12 then none
    else if val < 15000 || 5000000 < val then none
    else some val

/-- Truthiness of `m.group(n)` (`None` and `""` are falsy). -/
def gTruthy : Option (List Char) → Bool
  | some l => !l.isEmpty
  | none => false

/-- The role block of `rule_enrich` (main.py lines 313-317). -/
def enrichRole (p : ParsedItem) (td : List Char) : ParsedItem :=
  if p.role = "unknown" then
    if (search td tagVacRE).isSome || (search td needRE).isSome then
      { p with role := "employer" }
    else if (search td tagResumeRE).isSome || (search td offerSelfRE).isSome then
      { p with role := "candidate" }
    else p
  else p

/-- The position block of `rule_enrich` (main.py lines 319-322). -/
def enrichPosition (p : ParsedItem) (td : List Char) : ParsedItem :=
  if pyTruthyOptStr p.position then p
  else
    match search td positionRE with
    | some m => { p with position := some (String.mk (pyTitle (pyStrip (m.group0 td)))) }
    | none => p

/-- The salary candidate of `rule_enrich` (main.py line 325):
`RE_SALARY_TRUB.search(t) or RE_SALARY_NUM.search(t)`. -/
def salaryCandidate (td : List Char) : Option M :=
  (search td salaryTrubRE).orElse (fun _ => search td salaryNumRE)

/-- The phone-overlap test of `rule_enrich` (main.py line 328): some
`PHONE_RE` match spatially overlaps the span `[a, b)`. -/
def phoneOverlap (td : List Char) (a b : Nat) : Bool :=
  (finditer td phoneRE).any (fun ph => !(decide (ph.me ≤ a) || decide (b ≤ ph.ms)))

/-- The salary block of `rule_enrich` (main.py lines 324-339). -/
def enrichSalary (p : ParsedItem) (td : List Char) : ParsedItem :=
  if p.salary.min = none && p.salary.max = none then
    match salaryCandidate td with
    | some m =>
      if phoneOverlap td m.ms m.me then p
      else
        let base : List Char :=
          if m.lastindex ≠ 0 && 2 ≤ m.lastindex && gTruthy (m.group td 2) then
            (m.group td 2).getD []
          else if m.lastindex ≠ 0 && gTruthy (m.group td 1) then
            (m.group td 1).getD []
          else m.group0 td
        let unit : List Char :=
          if m.lastindex ≠ 0 && 4 ≤ m.lastindex then (m.group td 4).getD [] else []
        match intify base unit with
        | some val =>
          let sal := { p.salary with min := some val, max := none }
          let sal := if sal.currency = "unknown" then { sal with currency := rubHint td } else sal
          let sal := if sal.period = "unknown" then { sal with period := periodFromText td } else sal
          { p with salary := sal }
        | none => p
    | none => p
  else p

/-- The rotation block of `rule_enrich` (main.py lines 341-348). -/
def enrichRotation (p : ParsedItem) (td : List Char) : ParsedItem :=
  if (search td rotationRE).isSome then
    let employment :=
      if "rotation" ∉ p.employment then p.employment ++ ["rotation"] else p.employment
    let schedule :=
      if "вахта" ∉ p.schedule then p.schedule ++ ["вахта"] else p.schedule
    let ratios := (finditer td ratioRE).map (fun m => String.mk (m.group0 td))
    let schedule := ratios.foldl (fun sch r => if r ∉ sch then sch ++ [r] else sch) schedule
    { p with employment := employment, schedule := schedule }
  else p

/-- The location block of `rule_enrich` (main.py lines 350-358). -/
def enrichLocation (p : ParsedItem) (td : List Char) : ParsedItem :=
  if pyTruthyOptStr p.city.city || pyTruthyOptStr p.city.region then p
  else
    let locs := (finditer td locRE).map (fun m => m.group0 td)
    match locs with
    | [] => p
    | l0 :: _ =>
      let c := p.city
      let c :=
        match locs.find? (fun x => (search x cityOnlyRE).isSome) with
        | some x => { c with city := some (String.mk (pyTitle x)) }
        | none => { c with region := some (String.mk (pyTitle l0)) }
      let c := if !pyTruthyOptStr c.country then { c with country := some "Россия" } else c
      { p with city := c }

/-- The equipment block of `rule_enrich` (main.py lines 360-361);
`list({...})` modelled as first-seen dedup (set order unspecified). -/
def enrichEquip (p : ParsedItem) (td : List Char) : ParsedItem :=
  if (search td equipRE).isSome && p.equipment.isEmpty then
    { p with equipment :=
        dedupFS ((finditer td equipRE).map (fun m => String.mk (pyUpper (m.group0 td)))) }
  else p

/-- The skills block of `rule_enrich` (main.py lines 362-363). -/
def enrichSkills (p : ParsedItem) (td : List Char) : ParsedItem :=
  if (search td skillRE).isSome && p.skills.isEmpty then
    { p with skills := (finditer td skillRE).map (fun m => String.mk (pyUpper (m.group0 td))) }
  else p

/-- The contact block of `rule_enrich` (main.py lines 365-369): runs only
when none of phone, telegram, email is truthy. -/
def enrichContacts (p : ParsedItem) (td : List Char) : ParsedItem :=
  if pyTruthyOptStr p.contact.phone || pyTruthyOptStr p.contact.telegram ||
     pyTruthyOptStr p.contact.email then p
  else
    let c := p.contact
    let c := match search td phoneRE with
      | some m => { c with phone := some (String.mk (m.group0 td)) }
      | none => c
    let c := match search td tgRE with
      | some m => { c with telegram := some (String.mk ('@' :: (m.group td 1).getD [])) }
      | none => c
    let c := match search td emailRE with
      | some m => { c with email := some (String.mk (m.group0 td)) }
      | none => c
    { p with contact := c }

/-- `rule_enrich` (main.py lines 311-371): the field blocks in source order,
then `normalize`. -/
def rule_enrich (fz : FuzzOracle) (p : ParsedItem) (t : String) : ParsedItem :=
  let td := t.data
  normalize fz
    (enrichContacts
      (enrichSkills
        (enrichEquip
          (enrichLocation
            (enrichRotation
              (enrichSalary
                (enrichPosition (enrichRole p td) td) td) td) td) td) td) td)

/-! ## Validator repair rules (main.py lines 582-671) -/

def CITY_TO_REGION_COUNTRY : List (String × String × String) :=
  [("Москва", "Москва", "Россия"),
   ("Санкт-Петербург", "Санкт-Петербург", "Россия"),
   ("Белокаменка", "Мурманская область", "Россия"),
   ("Мурманск", "Мурманская область", "Россия"),
   ("Новый Уренгой", "Ямало-Ненецкий АО", "Россия"),
   ("Астрахань", "Астраханская область", "Россия"),
   ("Шерегеш", "Кемеровская область", "Россия")]

def cityLookup (k : String) : Option (String × String) :=
  match CITY_TO_REGION_COUNTRY.find? (fun p => p.1 = k) with
  | some p => some p.2
  | none => none

/-- `rule_impute_geo` (main.py lines 592-602). -/
def rule_impute_geo (p : ParsedItem) : ParsedItem :=
  let c := String.mk (pyStrip (p.city.city.getD "").data)
  let p :=
    if !c.isEmpty then
      match (cityLookup c).orElse (fun _ => cityLookup (String.mk (pyTitle c.data))) with
      | some rc =>
        let ci := p.city
        let ci := if !pyTruthyOptStr ci.region then { ci with region := some rc.1 } else ci
        let ci := if !pyTruthyOptStr ci.country then { ci with country := some rc.2 } else ci
        { p with city := ci }
      | none => p
    else p
  if pyTruthyOptStr p.city.city && !pyTruthyOptStr p.city.country then
    { p with city := { p.city with country := some "Россия" } }
  else p

/-- `rule_impute_schedule` (main.py lines 604-610). -/
def rule_impute_schedule (p : ParsedItem) (td : List Char) : ParsedItem :=
  if (search td ratioRE).isSome then
    let p := if "вахта" ∉ p.schedule then { p with schedule := p.schedule ++ ["вахта"] } else p
    if "rotation" ∉ p.employment then { p with employment := p.employment ++ ["rotation"] } else p
  else p

/-- `rule_fix_salary` (main.py lines 612-619).  The swap condition
`p.salary.min and p.salary.max and p.salary.min > p.salary.max` uses Python
truthiness, so a zero bound disables the swap. -/
def rule_fix_salary (p : ParsedItem) (td : List Char) : ParsedItem :=
  let s := p.salary
  let s := if s.currency = "unknown" then { s with currency := rubHint td } else s
  let s := if s.period = "unknown" then { s with period := periodFromText td } else s
  let s :=
    match s.min, s.max with
    | some a, some b =>
      if a ≠ 0 && b ≠ 0 && b < a then { s with min := some b, max := some a } else s
    | _, _ => s
  { p with salary := s }

/-- `validate_and_impute` (main.py lines 659-671): the three repair rules,
then optionally the model validator.  Validator availability and its reply
are external outcomes: `validatorOut = some p2` models a successful call
(whose JSON passes `ParsedItem.model_validate`, hence `modelValidate`),
`none` models the call raising, in which case the rule-repaired record is
returned. -/
def validate_and_impute (fz : FuzzOracle) (p : ParsedItem) (t : String)
    (validatorAvail : Bool) (validatorOut : Option ParsedItem) : ParsedItem :=
  let td := t.data
  let p := rule_impute_geo p
  let p := rule_impute_schedule p td
  let p := rule_fix_salary p td
  if validatorAvail then
    match validatorOut with
    | some p2 => normalize fz (modelValidate p2)
    | none => p
  else p

/-! ## Model-extraction client with sticky failover (main.py lines 487-561,
730-735) -/

inductive Backend where
  | cloud : Backend
  | localModel : Backend
  deriving DecidableEq, Repr

/-- Outcome of one attempt against the cloud backend. -/
inductive CloudOutcome where
  | ok : CloudOutcome
  | httpError (status : Nat) (bodyHasLimitVocab : Bool) : CloudOutcome
  | otherError : CloudOutcome
  deriving DecidableEq, Repr

def LIMIT_HTTP_STATUSES : List Nat := [401, 402, 403, 429]

/-- `call_llm_with_failover` (main.py lines 538-561): the global
`FALLBACK_ACTIVATED` flag is threaded as `fb`; the result is the new flag
value and the backends attempted, in order.  Both the limit/quota branch and
the generic-error branches set the flag; no branch clears it. -/
def call_llm_with_failover (cloudModel : Bool) (fb : Bool) (o : CloudOutcome) :
    Bool × List Backend :=
  if cloudModel && !fb then
    match o with
    | .ok => (fb, [Backend.cloud])
    | .httpError st body =>
      if st ∈ LIMIT_HTTP_STATUSES || body then (true, [Backend.cloud, Backend.localModel])
      else (true, [Backend.cloud, Backend.localModel])
    | .otherError => (true, [Backend.cloud, Backend.localModel])
  else (fb, [Backend.localModel])

/-- The per-call backend trace of a run: fold `call_llm_with_failover` over
the cloud outcomes, threading the flag. -/
def runTrace (cloudModel : Bool) (fb : Bool) : List CloudOutcome → List (List Backend)
  | [] => []
  | o :: os =>
    let r := call_llm_with_failover cloudModel fb o
    r.2 :: runTrace cloudModel r.1 os

/-- The preflight trip in `main_loop` (main.py lines 730-735): a failed
cloud preflight sets `FALLBACK_ACTIVATED` before any record is processed. -/
def main_loop_preflight (cloudModel fb preflightOk : Bool) : Bool :=
  if cloudModel && !fb && !preflightOk then true else fb

/-! ## Orchestrator (`parse_one`, main.py lines 674-720) -/

/-- The fields of the degraded stub (main.py lines 690-705): whatever could
be salvaged from the error text via `re.search(r"\{[\s\S]*\}", str(e))`,
with the `.get` defaults already applied; an empty salvage is `{}`. -/
structure StubFields where
  role : String := "unknown"
  position : Option String := none
  salary : Salary := {}
  employment : List String := []
  schedule : List String := []
  equipment : List String := []
  skills : List String := []
  experience_years : Option ℚ := none
  city : City := {}
  contact : Contact := {}
  source : SourceInfo := {}
  deriving Repr

/-- Outcome of `call_llm_with_failover` + `ParsedItem.model_validate` as
seen by `parse_one`: a validated item, or an exception carrying the
salvageable fields. -/
inductive LLMOutcome where
  | success (item : ParsedItem) : LLMOutcome
  | failure (salvage : StubFields) : LLMOutcome

/-- The stub record of the degraded path (main.py lines 690-706):
`confidence = 0.3`, `errors = ["fallback"]`, then
`ParsedItem.model_validate(stub)`. -/
def buildStub (sv : StubFields) (text : String) : ParsedItem :=
  modelValidate
    { role := sv.role, position := sv.position, salary := sv.salary,
      employment := sv.employment, schedule := sv.schedule,
      equipment := sv.equipment, skills := sv.skills,
      experience_years := sv.experience_years, city := sv.city,
      contact := sv.contact, source := sv.source,
      text_clean := text, confidence := .fl (.num q0_3),
      errors := ["fallback"] }

/-- The final contact safety net of `parse_one` (main.py lines 712-718). -/
def contactSafetyNet (p : ParsedItem) (td : List Char) : ParsedItem :=
  if pyTruthyOptStr p.contact.phone || pyTruthyOptStr p.contact.email ||
     pyTruthyOptStr p.contact.telegram then p
  else
    let c := p.contact
    let c := match search td phoneRE with
      | some m => { c with phone := some (String.mk (m.group0 td)) }
      | none => c
    let c := match search td emailRE with
      | some m => { c with email := some (String.mk (m.group0 td)) }
      | none => c
    let c := match search td tgRE with
      | some m => { c with telegram := some (String.mk ('@' :: (m.group td 1).getD [])) }
      | none => c
    { p with contact := c }

/-- `parse_one` (main.py lines 674-720).  The model call and the validator
call are external outcomes; persistence (`upsert_job`) is the external
collaborator receiving the returned record.  `none` means the record was
skipped because the sanitized text is empty (`if not text: return`). -/
def parse_one (fz : FuzzOracle) (rawText : String) (llm : LLMOutcome)
    (validatorAvail : Bool) (validatorOut : Option ParsedItem) : Option ParsedItem :=
  let raw := String.mk (pyStrip rawText.data)
  let text := sanitize_text raw
  if text.data.isEmpty then none
  else
    let parsed :=
      match llm with
      | .success item => modelValidate item
      | .failure sv => buildStub sv text
    let parsed := normalize fz parsed
    let parsed := rule_enrich fz parsed text
    let parsed := validate_and_impute fz parsed text validatorAvail validatorOut
    let parsed := contactSafetyNet parsed text.data
    some parsed

/-! ## `app/extract_simple.py` -/

def CURRENCY_MAP : List (String × String) :=
  [("₽", "RUB"), ("руб", "RUB"), ("р.", "RUB"), ("р ", "RUB"), ("т.р", "RUB"),
   ("тр", "RUB"), ("тыс", "RUB"), ("тенге", "KZT"), ("тг", "KZT"),
   ("kzt", "KZT"), ("$", "USD"), ("usd", "USD"), ("€", "EUR"), ("eur", "EUR"),
   ("byn", "BYN"), ("uah", "UAH")]

def PERIOD_WORDS : List (String × List String) :=
  [("month", ["в месяц", "в мес", "мес", "месяц", "/мес"]),
   ("shift", ["за смену", "смена", "/смен"]),
   ("hour", ["в час", "час", "/час"]),
   ("project", ["за проект", "проект"])]

def SEEKER_MARKERS : List String :=
  ["ищу работу", "ищу подработку", "рассмотрю предложения", "готов выйти",
   "резюме", "соискатель", "срочно ищу"]

def EMPLOYER_MARKERS : List String :=
  ["вакансия", "требуется", "нужен", "открыта позиция", "примем", "ищем"]

/-- `_find_currency` (extract_simple.py lines 47-52): first map entry whose
key occurs in the lowercased text. -/
def find_currency (t : List Char) : String :=
  let tl := pyLower t
  match CURRENCY_MAP.find? (fun kv => containsSub tl kv.1.data) with
  | some kv => kv.2
  | none => "UNKNOWN"

/-- `_find_period` (extract_simple.py lines 54-59). -/
def find_period (t : List Char) : String :=
  let tl := pyLower t
  match PERIOD_WORDS.find? (fun pk => pk.2.any (fun k => containsSub tl k.data)) with
  | some pk => pk.1
  | none => "unknown"

def SUFFIXES : List String := ["к", "k", "тыс", "т.р", "тр"]

/-- `to_num` inside `_parse_salary` (extract_simple.py lines 68-72):
`float` of the de-whitespaced digit string, times 1000 on a thousands
suffix.  All reachable values are integers below 2^53, where CPython float
arithmetic is exact, so the result is embedded as `Int`. -/
def to_num (s : List Char) (suf : Option (List Char)) : Int :=
  let x : Int := (digitsToNat (s.filter (fun c => !pyIsSpace c)) : Int)
  match suf with
  | some u => if String.mk u ∈ SUFFIXES then x * 1000 else x
  | none => x

/-- `_parse_salary` (extract_simple.py lines 61-90): lowercase, map NBSP to
space (`.replace(" ", " ")` is a no-op: both arguments are U+0020), try the
range pattern, then the single pattern; returns
`(min, max, currency, period, raw)`. -/
def parse_salary (text : String) :
    Option Int × Option Int × String × String × String :=
  let t := (pyLower text.data).map (fun c => if c.toNat = 0xA0 then ' ' else c)
  let currency := find_currency t
  let period := find_period t
  match search t rngRE with
  | some m =>
    let mn := to_num ((m.group t 1).getD []) (m.group t 3)
    let mx := to_num ((m.group t 2).getD []) (m.group t 3)
    let p := if mx < mn then (mx, mn) else (mn, mx)
    (some p.1, some p.2, currency, period, String.mk (m.group0 t))
  | none =>
    match search t singleRE with
    | some m =>
      let v := to_num ((m.group t 1).getD []) (m.group t 2)
      (some v, some v, currency, period, String.mk (m.group0 t))
    | none => (none, none, currency, period, "")

/-- `_is_employer` (extract_simple.py lines 130-135): seeker markers first
(return `False`), then employer markers (return `True`), default `True`. -/
def is_employer (text : String) : Bool :=
  let tl := pyLower text.data
  if SEEKER_MARKERS.any (fun x => containsSub tl x.data) then false
  else if EMPLOYER_MARKERS.any (fun x => containsSub tl x.data) then true
  else true

end GeoJobs

namespace GeoJobs

open PyRe

/-! ## Preservation lemmas: which fields each pipeline stage leaves alone -/

theorem enrichRole_salary (p : ParsedItem) (td : List Char) :
    (enrichRole p td).salary = p.salary := by
  simp only [enrichRole]; repeat' split
  all_goals rfl

theorem enrichPosition_salary (p : ParsedItem) (td : List Char) :
    (enrichPosition p td).salary = p.salary := by
  simp only [enrichPosition]; repeat' split
  all_goals rfl

theorem enrichRotation_salary (p : ParsedItem) (td : List Char) :
    (enrichRotation p td).salary = p.salary := by
  simp only [enrichRotation]; repeat' split
  all_goals rfl

theorem enrichLocation_salary (p : ParsedItem) (td : List Char) :
    (enrichLocation p td).salary = p.salary := by
  simp only [enrichLocation]; repeat' split
  all_goals rfl

theorem enrichEquip_salary (p : ParsedItem) (td : List Char) :
    (enrichEquip p td).salary = p.salary := by
  simp only [enrichEquip]; repeat' split
  all_goals rfl

theorem enrichSkills_salary (p : ParsedItem) (td : List Char) :
    (enrichSkills p td).salary = p.salary := by
  simp only [enrichSkills]; repeat' split
  all_goals rfl

theorem enrichContacts_salary (p : ParsedItem) (td : List Char) :
    (enrichContacts p td).salary = p.salary := by
  simp only [enrichContacts]; repeat' split
  all_goals rfl

theorem normalize_salary_min (fz : FuzzOracle) (p : ParsedItem) :
    (normalize fz p).salary.min = p.salary.min := rfl

theorem normalize_salary_max (fz : FuzzOracle) (p : ParsedItem) :
    (normalize fz p).salary.max = p.salary.max := rfl

theorem enrichRole_keeps (p : ParsedItem) (td : List Char) :
    (enrichRole p td).contact = p.contact ∧ (enrichRole p td).confidence = p.confidence ∧
    (enrichRole p td).errors = p.errors := by
  simp only [enrichRole]; repeat' split
  all_goals and_intros <;> first | rfl | trivial

theorem enrichPosition_keeps (p : ParsedItem) (td : List Char) :
    (enrichPosition p td).role = p.role ∧ (enrichPosition p td).contact = p.contact ∧
    (enrichPosition p td).confidence = p.confidence ∧ (enrichPosition p td).errors = p.errors := by
  simp only [enrichPosition]; repeat' split
  all_goals and_intros <;> first | rfl | trivial

theorem enrichSalary_keeps (p : ParsedItem) (td : List Char) :
    (enrichSalary p td).role = p.role ∧ (enrichSalary p td).contact = p.contact ∧
    (enrichSalary p td).confidence = p.confidence ∧ (enrichSalary p td).errors = p.errors := by
  simp only [enrichSalary]; repeat' split
  all_goals and_intros <;> first | rfl | trivial

theorem enrichRotation_keeps (p : ParsedItem) (td : List Char) :
    (enrichRotation p td).role = p.role ∧ (enrichRotation p td).contact = p.contact ∧
    (enrichRotation p td).confidence = p.confidence ∧ (enrichRotation p td).errors = p.errors := by
  simp only [enrichRotation]; repeat' split
  all_goals and_intros <;> first | rfl | trivial

theorem enrichLocation_keeps (p : ParsedItem) (td : List Char) :
    (enrichLocation p td).role = p.role ∧ (enrichLocation p td).contact = p.contact ∧
    (enrichLocation p td).confidence = p.confidence ∧ (enrichLocation p td).errors = p.errors := by
  simp only [enrichLocation]; repeat' split
  all_goals and_intros <;> first | rfl | trivial

theorem enrichEquip_keeps (p : ParsedItem) (td : List Char) :
    (enrichEquip p td).role = p.role ∧ (enrichEquip p td).contact = p.contact ∧
    (enrichEquip p td).confidence = p.confidence ∧ (enrichEquip p td).errors = p.errors := by
  simp only [enrichEquip]; repeat' split
  all_goals and_intros <;> first | rfl | trivial

theorem enrichSkills_keeps (p : ParsedItem) (td : List Char) :
    (enrichSkills p td).role = p.role ∧ (enrichSkills p td).contact = p.contact ∧
    (enrichSkills p td).confidence = p.confidence ∧ (enrichSkills p td).errors = p.errors := by
  simp only [enrichSkills]; repeat' split
  all_goals and_intros <;> first | rfl | trivial

theorem enrichContacts_keeps (p : ParsedItem) (td : List Char) :
    (enrichContacts p td).role = p.role ∧ (enrichContacts p td).confidence = p.confidence ∧
    (enrichContacts p td).errors = p.errors := by
  simp only [enrichContacts]; repeat' split
  all_goals and_intros <;> first | rfl | trivial

theorem normalize_role (fz : FuzzOracle) (p : ParsedItem) :
    (normalize fz p).role = p.role := rfl

theorem normalize_contact (fz : FuzzOracle) (p : ParsedItem) :
    (normalize fz p).contact = p.contact := rfl

theorem normalize_errors (fz : FuzzOracle) (p : ParsedItem) :
    (normalize fz p).errors = p.errors := rfl

theorem normalize_confidence (fz : FuzzOracle) (p : ParsedItem) :
    (normalize fz p).confidence = .fl (normalizeConf p.confidence) := rfl

theorem rule_impute_geo_keeps (p : ParsedItem) :
    (rule_impute_geo p).salary = p.salary ∧ (rule_impute_geo p).contact = p.contact ∧
    (rule_impute_geo p).confidence = p.confidence ∧ (rule_impute_geo p).errors = p.errors := by
  simp only [rule_impute_geo]; repeat' split
  all_goals and_intros <;> first | rfl | trivial

theorem rule_impute_schedule_keeps (p : ParsedItem) (td : List Char) :
    (rule_impute_schedule p td).salary = p.salary ∧
    (rule_impute_schedule p td).contact = p.contact ∧
    (rule_impute_schedule p td).confidence = p.confidence ∧
    (rule_impute_schedule p td).errors = p.errors := by
  simp only [rule_impute_schedule]; repeat' split
  all_goals and_intros <;> first | rfl | trivial

theorem rule_fix_salary_keeps (p : ParsedItem) (td : List Char) :
    (rule_fix_salary p td).contact = p.contact ∧
    (rule_fix_salary p td).confidence = p.confidence ∧
    (rule_fix_salary p td).errors = p.errors := by
  simp only [rule_fix_salary]; repeat' split
  all_goals and_intros <;> first | rfl | trivial

theorem contactSafetyNet_keeps (p : ParsedItem) (td : List Char) :
    (contactSafetyNet p td).salary = p.salary ∧
    (contactSafetyNet p td).confidence = p.confidence ∧
    (contactSafetyNet p td).errors = p.errors := by
  simp only [contactSafetyNet]; repeat' split
  all_goals and_intros <;> first | rfl | trivial

theorem modelValidate_salary (p : ParsedItem) :
    (modelValidate p).salary = fixRange p.salary := rfl

/-- The fuzzy-matching oracle used for concrete runs in which the
equipment/skills lists are empty, so `process.extractOne` is never consulted
(its value is irrelevant there). -/
def noFuzz : FuzzOracle := fun _ _ => none

/-! ## C2: sticky failover -/

/-- C2: the failover state is sticky within a run: with the flag tripped,
`call_llm_with_failover` targets only the local backend and never resets the
flag; any cloud failure (limit status, limit vocabulary, or any other error)
trips the flag and retries the same record locally; every later call of the
run then targets the local backend only; the `main_loop` preflight likewise
only ever sets the flag. -/
theorem C2_sticky_failover :
    (∀ (cm : Bool) (o : CloudOutcome),
      call_llm_with_failover cm true o = (true, [Backend.localModel])) ∧
    (∀ o : CloudOutcome, o ≠ CloudOutcome.ok →
      call_llm_with_failover true false o = (true, [Backend.cloud, Backend.localModel])) ∧
    (∀ (cm : Bool) (outs : List CloudOutcome),
      runTrace cm true outs = outs.map fun _ => [Backend.localModel]) ∧
    (∀ (cm ok : Bool), main_loop_preflight cm true ok = true) ∧
    main_loop_preflight true false false = true := by
  refine ⟨?_, ?_, ?_, ?_, rfl⟩
  · intro cm o
    cases cm <;> rfl
  · intro o ho
    cases o with
    | ok => exact absurd rfl ho
    | httpError st body => simp [call_llm_with_failover]
    | otherError => rfl
  · intro cm outs
    induction outs with
    | nil => rfl
    | cons o os ih =>
      have h1 : call_llm_with_failover cm true o = (true, [Backend.localModel]) := by
        cases cm <;> rfl
      simp [runTrace, h1, ih]
  · intro cm ok
    cases cm <;> cases ok <;> rfl

/-- Witness for C2 at concrete inputs: a non-`ok` outcome trips the flag and
falls back to the local backend within the same call, and a tripped run
calls only the local backend afterwards. -/
theorem C2_witness :
    call_llm_with_failover true false CloudOutcome.otherError =
      (true, [Backend.cloud, Backend.localModel]) ∧
    runTrace true true [CloudOutcome.ok, CloudOutcome.otherError] =
      [[Backend.localModel], [Backend.localModel]] := by
  constructor
  · exact C2_sticky_failover.2.1 CloudOutcome.otherError (by simp)
  · simpa using C2_sticky_failover.2.2.1 true [CloudOutcome.ok, CloudOutcome.otherError]

/-! ## C7: the sanitizer is not idempotent (code bug) -/

/-- C7: the spec requires `sanitize(sanitize(x)) == sanitize(x)` for all x,
but the code violates it: on `" переслано от y"` the first pass only strips
the leading space (the forwarded-banner pattern `^переслано от.*$` needs the
banner at line start), and the second pass then removes the whole line. -/
theorem C7_sanitize_not_idempotent :
    sanitize_text " переслано от y" = "переслано от y" ∧
    sanitize_text (sanitize_text " переслано от y") = "" ∧
    sanitize_text (sanitize_text " переслано от y") ≠ sanitize_text " переслано от y" := by
  exact ⟨rfl, rfl, by decide⟩

/-! ## C5: confidence clamping (corrected: NaN clamps to 1.0, not 0.0) -/

/-- Counterexample to C5 as stated: an upstream `NaN` confidence is clamped
to `1.0`, not `0.0` (`NaN` is truthy, and CPython's `min(1.0, nan)` keeps
its first argument because `nan < 1.0` is false). -/
theorem C5_counterexample :
    (normalize noFuzz { confidence := .fl .nan }).confidence = .fl (.num 1) ∧
    PyVal.fl (PyF.num 1) ≠ PyVal.fl (PyF.num 0) := by
  refine ⟨rfl, ?_⟩
  intro h
  have : (1 : ℚ) = 0 := by injection h with h1; injection h1
  norm_num at this

/-- C5 (amended): after `normalize` the confidence is a number in
`[0, 1]` whatever the upstream value; `2.5` clamps to `1.0`; a non-numeric
confidence becomes `0.0`; an upstream `NaN` clamps to `1.0` (not `0.0`). -/
theorem C5_confidence_clamped :
    (∀ (fz : FuzzOracle) (p : ParsedItem), ∃ q : ℚ,
      (normalize fz p).confidence = .fl (.num q) ∧ 0 ≤ q ∧ q ≤ 1) ∧
    (normalize noFuzz { confidence := .fl (.num q2_5) }).confidence = .fl (.num 1) ∧
    (normalize noFuzz { confidence := .nonnum }).confidence = .fl (.num 0) ∧
    (normalize noFuzz { confidence := .fl .nan }).confidence = .fl (.num 1) ∧
    q2_5 = 5/2 := by
  refine ⟨?_, rfl, rfl, rfl, by rw [q2_5, Rat.mk'_eq_divInt]; norm_num [Rat.divInt_eq_div]⟩
  intro fz p
  rw [normalize_confidence]
  cases hc : p.confidence with
  | nonnum => exact ⟨0, rfl, le_refl 0, by norm_num⟩
  | fl x =>
    cases x with
    | nan => exact ⟨1, rfl, by norm_num, le_refl 1⟩
    | num q =>
      by_cases h0 : q = 0
      · exact ⟨0, by simp [normalizeConf, pyTruthyF, pyMin, pyMax, pyLt, h0],
              le_refl 0, by norm_num⟩
      · by_cases h1 : q < 1
        · by_cases h2 : q < 0
          · have h2' : ¬ (0 : ℚ) < q := asymm h2
            exact ⟨0, by simp [normalizeConf, pyTruthyF, pyMin, pyMax, pyLt, h0, h1, h2'],
                  le_refl 0, by norm_num⟩
          · have h2' : (0 : ℚ) < q := lt_of_le_of_ne (not_lt.mp h2) (Ne.symm h0)
            exact ⟨q, by simp [normalizeConf, pyTruthyF, pyMin, pyMax, pyLt, h0, h1, h2'],
                  le_of_lt h2', le_of_lt h1⟩
        · have h01 : (0 : ℚ) < 1 := by norm_num
          exact ⟨1, by simp [normalizeConf, pyTruthyF, pyMin, pyMax, pyLt, h0, h1, h01],
                by norm_num, le_refl 1⟩

/-! ## C3: salary unit normalization -/

/-- C3: `_parse_salary` parses "200к" and "200 000" to 200000 and the range
"200-250 т.р" to min 200000 / max 250000; any suffix in {к, k, тыс, т.р, тр}
multiplies the parsed number by 1000 (`to_num`); and in `_intify` a bare
number under 1000 (with no unit hint) is multiplied by 1000 (subject to the
phone-length and plausibility filters). -/
theorem C3_salary_units :
    (parse_salary "200к" = (some 200000, some 200000, "UNKNOWN", "unknown", "200к")) ∧
    (parse_salary "200 000" = (some 200000, some 200000, "UNKNOWN", "unknown", "200 000")) ∧
    (parse_salary "200-250 т.р" =
      (some 200000, some 250000, "RUB", "unknown", "200-250 т.р")) ∧
    (∀ (s u : List Char), String.mk u ∈ SUFFIXES →
      to_num s (some u) = (digitsToNat (s.filter fun c => !pyIsSpace c) : Int) * 1000) ∧
    (∀ s : List Char, s ≠ [] → (∀ c ∈ s, isAsciiDigit c = true) → s.length ≤ 9 →
      15 ≤ digitsToNat s → digitsToNat s < 1000 →
      intify s [] = some ((digitsToNat s : Int) * 1000)) := by
  refine ⟨rfl, rfl, rfl, ?_, ?_⟩
  · intro s u hu
    simp [to_num, hu]
  · intro s hne hdig hlen h15 hlt
    have hfil : s.filter isAsciiDigit = s := List.filter_eq_self.mpr hdig
    have hE : s.isEmpty = false := by
      cases s with
      | nil => exact absurd rfl hne
      | cons c cs => rfl
    have hv1000 : (digitsToNat s : Int) < 1000 := by exact_mod_cast hlt
    have hv15 : (15 : Int) ≤ (digitsToNat s : Int) := by exact_mod_cast h15
    have hlen10 : ¬ (10 ≤ s.length) := by omega
    have hband1 : ¬ ((digitsToNat s : Int) * 1000 < 15000) := by linarith
    have hband2 : ¬ ((5000000 : Int) < (digitsToNat s : Int) * 1000) := by linarith
    simp [intify, hfil, hE, hv1000, hlen10, hband1, hband2]

/-- Witness for C3's universally quantified parts at concrete inputs:
the suffix "к" multiplies by 1000, and the bare "200" becomes 200000. -/
theorem C3_witness :
    to_num "200".data (some "к".data) = 200000 ∧
    intify "200".data [] = some 200000 := by
  constructor
  · have h := C3_salary_units.2.2.2.1 "200".data "к".data (by decide)
    simpa using h
  · have h := C3_salary_units.2.2.2.2 "200".data (by decide) (by decide) (by decide)
      (by decide) (by decide)
    simpa using h

/-! ## C1: phone/salary disambiguation -/

/-- The salary block leaves the salary unchanged when it starts unset and
every candidate match overlaps a phone-shaped span. -/
theorem enrichSalary_skip (p : ParsedItem) (td : List Char)
    (hmin : p.salary.min = none) (hmax : p.salary.max = none)
    (hover : ∀ m, salaryCandidate td = some m → phoneOverlap td m.ms m.me = true) :
    (enrichSalary p td).salary = p.salary := by
  unfold enrichSalary
  rw [hmin, hmax]
  cases hc : salaryCandidate td with
  | none => simp [hc]
  | some m => simp [hc, hover m hc]

/-- C1: on text whose salary-candidate matches (if any) all spatially
overlap a `PHONE_RE` match — in particular on text whose only numeric token
is a phone-shaped span and which has no salary keyword — `rule_enrich`
leaves `salary.min` and `salary.max` unset: an overlapping candidate is
rejected. -/
theorem C1_phone_salary_disambiguation (fz : FuzzOracle) (p : ParsedItem) (t : String)
    (hmin : p.salary.min = none) (hmax : p.salary.max = none)
    (hover : ∀ m, salaryCandidate t.data = some m → phoneOverlap t.data m.ms m.me = true) :
    (rule_enrich fz p t).salary.min = none ∧ (rule_enrich fz p t).salary.max = none := by
  have h1 : (enrichRole p t.data).salary = p.salary := enrichRole_salary p t.data
  have h2 : (enrichPosition (enrichRole p t.data) t.data).salary = p.salary :=
    (enrichPosition_salary _ t.data).trans h1
  have hmin2 : (enrichPosition (enrichRole p t.data) t.data).salary.min = none := by
    rw [h2]; exact hmin
  have hmax2 : (enrichPosition (enrichRole p t.data) t.data).salary.max = none := by
    rw [h2]; exact hmax
  have h3 : (enrichSalary (enrichPosition (enrichRole p t.data) t.data) t.data).salary
      = p.salary :=
    (enrichSalary_skip _ t.data hmin2 hmax2 hover).trans h2
  have h4 := (enrichRotation_salary
    (enrichSalary (enrichPosition (enrichRole p t.data) t.data) t.data) t.data).trans h3
  have h5 := (enrichLocation_salary _ t.data).trans h4
  have h6 := (enrichEquip_salary _ t.data).trans h5
  have h7 := (enrichSkills_salary _ t.data).trans h6
  have h8 := (enrichContacts_salary _ t.data).trans h7
  unfold rule_enrich
  constructor
  · rw [normalize_salary_min, h8]; exact hmin
  · rw [normalize_salary_max, h8]; exact hmax

/-- Witness for C1: the spec's example text "+7 999 123-45-67" (a lone
phone number, no salary keyword) yields an unset salary; here the candidate
search itself is empty, so the overlap hypothesis holds vacuously. -/
theorem C1_witness :
    (rule_enrich noFuzz {} "+7 999 123-45-67").salary.min = none ∧
    (rule_enrich noFuzz {} "+7 999 123-45-67").salary.max = none := by
  refine C1_phone_salary_disambiguation noFuzz {} "+7 999 123-45-67" rfl rfl ?_
  intro m hm
  rw [show salaryCandidate "+7 999 123-45-67".data = none from rfl] at hm
  exact Option.noConfusion hm

/-! ## C6: role inference precedence (corrected: the two extractors
disagree — `_is_employer` gives seekers precedence, `rule_enrich` gives
hiring markers precedence) -/

/-- Counterexample to C6 as stated: the text
"требуется инженер. предлагаю услуги" contains both a hiring marker
(`RE_NEED`: "требуется") and a seeking-work marker (`RE_OFFER_SELF`:
"предлагаю услуги"), yet `rule_enrich` classifies it as `employer`, not
`candidate` — in `rule_enrich` the hiring branch is tested first. -/
theorem C6_counterexample :
    (search "требуется инженер. предлагаю услуги".data needRE).isSome = true ∧
    (search "требуется инженер. предлагаю услуги".data offerSelfRE).isSome = true ∧
    (rule_enrich noFuzz {} "требуется инженер. предлагаю услуги").role = "employer" ∧
    "employer" ≠ "candidate" := by
  exact ⟨rfl, rfl, rfl, by decide⟩

/-- C6 (amended): in `extract_simple._is_employer` seeker markers take
precedence (any seeker marker forces the non-employer classification even
when hiring markers are present); in `main.py`'s `rule_enrich` the
precedence is reversed: a vacancy-tag or need marker forces `employer`
even when seeker markers are present. -/
theorem C6_role_precedence :
    (∀ t : String,
      SEEKER_MARKERS.any (fun x => containsSub (pyLower t.data) x.data) = true →
      is_employer t = false) ∧
    (∀ (fz : FuzzOracle) (p : ParsedItem) (t : String), p.role = "unknown" →
      ((search t.data tagVacRE).isSome || (search t.data needRE).isSome) = true →
      (rule_enrich fz p t).role = "employer") := by
  constructor
  · intro t h
    simp [is_employer, h]
  · intro fz p t hrole hvac
    have h1 : (enrichRole p t.data).role = "employer" := by
      simp [enrichRole, hrole, hvac]
    have h2 := (enrichPosition_keeps (enrichRole p t.data) t.data).1.trans h1
    have h3 := (enrichSalary_keeps _ t.data).1.trans h2
    have h4 := (enrichRotation_keeps _ t.data).1.trans h3
    have h5 := (enrichLocation_keeps _ t.data).1.trans h4
    have h6 := (enrichEquip_keeps _ t.data).1.trans h5
    have h7 := (enrichSkills_keeps _ t.data).1.trans h6
    have h8 := (enrichContacts_keeps _ t.data).1.trans h7
    unfold rule_enrich
    rw [normalize_role]
    exact h8

/-- Witness for C6 (amended) at concrete inputs: a text with both marker
kinds is not an employer for `_is_employer`, and a need-marker text makes
`rule_enrich` set `employer`. -/
theorem C6_witness :
    is_employer "вакансия? нет, я соискатель" = false ∧
    (rule_enrich noFuzz {} "ищем водителя").role = "employer" := by
  constructor
  · exact C6_role_precedence.1 "вакансия? нет, я соискатель" (by decide)
  · exact C6_role_precedence.2 noFuzz {} "ищем водителя" rfl (by decide)

/-! ## C10: the all-or-nothing contact gate -/

/-- C10: the heuristic contact block of `rule_enrich` and the final contact
safety net of `parse_one` both run only when none of phone, telegram, email
is (truthily) set; with any one channel set, neither touches the contact
record at all — channels are never filled independently. -/
theorem C10_contact_gate :
    (∀ (fz : FuzzOracle) (p : ParsedItem) (t : String),
      (pyTruthyOptStr p.contact.phone || pyTruthyOptStr p.contact.telegram ||
        pyTruthyOptStr p.contact.email) = true →
      (rule_enrich fz p t).contact = p.contact) ∧
    (∀ (p : ParsedItem) (td : List Char),
      (pyTruthyOptStr p.contact.phone || pyTruthyOptStr p.contact.email ||
        pyTruthyOptStr p.contact.telegram) = true →
      contactSafetyNet p td = p) := by
  constructor
  · intro fz p t h
    have k1 := (enrichRole_keeps p t.data).1
    have k2 := (enrichPosition_keeps (enrichRole p t.data) t.data).2.1.trans k1
    have k3 := (enrichSalary_keeps _ t.data).2.1.trans k2
    have k4 := (enrichRotation_keeps _ t.data).2.1.trans k3
    have k5 := (enrichLocation_keeps _ t.data).2.1.trans k4
    have k6 := (enrichEquip_keeps _ t.data).2.1.trans k5
    have k7 := (enrichSkills_keeps _ t.data).2.1.trans k6
    have hg : (pyTruthyOptStr (enrichSkills (enrichEquip (enrichLocation (enrichRotation
        (enrichSalary (enrichPosition (enrichRole p t.data) t.data) t.data) t.data) t.data)
        t.data) t.data).contact.phone ||
        pyTruthyOptStr (enrichSkills (enrichEquip (enrichLocation (enrichRotation
        (enrichSalary (enrichPosition (enrichRole p t.data) t.data) t.data) t.data) t.data)
        t.data) t.data).contact.telegram ||
        pyTruthyOptStr (enrichSkills (enrichEquip (enrichLocation (enrichRotation
        (enrichSalary (enrichPosition (enrichRole p t.data) t.data) t.data) t.data) t.data)
        t.data) t.data).contact.email) = true := by
      rw [k7]; exact h
    have k8 : enrichContacts (enrichSkills (enrichEquip (enrichLocation (enrichRotation
        (enrichSalary (enrichPosition (enrichRole p t.data) t.data) t.data) t.data) t.data)
        t.data) t.data) t.data =
        enrichSkills (enrichEquip (enrichLocation (enrichRotation
        (enrichSalary (enrichPosition (enrichRole p t.data) t.data) t.data) t.data) t.data)
        t.data) t.data := by
      unfold enrichContacts
      rw [hg]
      rfl
    unfold rule_enrich
    rw [normalize_contact, k8]
    exact k7
  · intro p td h
    unfold contactSafetyNet
    rw [h]
    rfl

/-- Witness for C10: a record whose only contact channel is a telegram
handle keeps its contact record unchanged through `rule_enrich` and through
the safety net, although the text contains a phone number and an email. -/
theorem C10_witness :
    (rule_enrich noFuzz { contact := { telegram := some "@hr" } }
      "+7 999 123-45-67 пиши a@b.io").contact =
      ({ contact := { telegram := some "@hr" } } : ParsedItem).contact ∧
    contactSafetyNet { contact := { telegram := some "@hr" } }
      "+7 999 123-45-67 пиши a@b.io".data =
      ({ contact := { telegram := some "@hr" } } : ParsedItem) := by
  constructor
  · exact C10_contact_gate.1 noFuzz { contact := { telegram := some "@hr" } }
      "+7 999 123-45-67 пиши a@b.io" (by decide)
  · exact C10_contact_gate.2 { contact := { telegram := some "@hr" } }
      "+7 999 123-45-67 пиши a@b.io".data (by decide)

/-! ## C4: salary range invariant -/

/-- Both bounds set implies `min ≤ max`. -/
def SalInv (s : Salary) : Prop :=
  ∀ a b : Int, s.min = some a → s.max = some b → a ≤ b

theorem salInv_of_eq {s s' : Salary} (h : s' = s) (hi : SalInv s) : SalInv s' :=
  h ▸ hi

theorem salInv_of_minmax {s s' : Salary} (hmin : s'.min = s.min) (hmax : s'.max = s.max)
    (hi : SalInv s) : SalInv s' :=
  fun a b ha hb => hi a b (hmin ▸ ha) (hmax ▸ hb)

/-- The `Salary._fix_range` validator establishes the invariant. -/
theorem fixRange_inv (s : Salary) : SalInv (fixRange s) := by
  intro a b ha hb
  rcases hm : s.min with _ | x
  · have he : fixRange s = s := by simp [fixRange, hm]
    rw [he, hm] at ha
    exact Option.noConfusion ha
  · rcases hM : s.max with _ | y
    · have he : fixRange s = s := by simp [fixRange, hm, hM]
      rw [he, hM] at hb
      exact Option.noConfusion hb
    · by_cases hxy : y < x
      · have he : fixRange s = { s with min := some y, max := some x } := by
          simp [fixRange, hm, hM, hxy]
        rw [he] at ha hb
        simp only [Option.some.injEq] at ha hb
        omega
      · have he : fixRange s = s := by simp [fixRange, hm, hM, hxy]
        rw [he, hm] at ha
        rw [he, hM] at hb
        simp only [Option.some.injEq] at ha hb
        omega

/-- An inverted pair is repaired by swapping the bounds, not by rejecting
the record. -/
theorem fixRange_swap (s : Salary) (a b : Int)
    (ha : s.min = some a) (hb : s.max = some b) (hlt : b < a) :
    fixRange s = { s with min := some b, max := some a } := by
  simp [fixRange, ha, hb, hlt]

theorem enrichSalary_inv (p : ParsedItem) (td : List Char) (h : SalInv p.salary) :
    SalInv (enrichSalary p td).salary := by
  simp only [enrichSalary]
  repeat' split
  all_goals first
    | exact h
    | (intro a b ha hb; simp at hb)

/-- `rule_fix_salary` either keeps both bounds or swaps an inverted pair. -/
theorem rule_fix_salary_char (p : ParsedItem) (td : List Char) :
    ((rule_fix_salary p td).salary.min = p.salary.min ∧
     (rule_fix_salary p td).salary.max = p.salary.max) ∨
    (∃ x y : Int, p.salary.min = some x ∧ p.salary.max = some y ∧ y < x ∧
      (rule_fix_salary p td).salary.min = some y ∧
      (rule_fix_salary p td).salary.max = some x) := by
  simp only [rule_fix_salary]
  repeat' split
  all_goals simp_all

theorem rule_fix_salary_inv (p : ParsedItem) (td : List Char) (h : SalInv p.salary) :
    SalInv (rule_fix_salary p td).salary := by
  intro a b ha hb
  rcases rule_fix_salary_char p td with ⟨h1, h2⟩ | ⟨x, y, _, _, hlt, h1, h2⟩
  · exact h a b (h1 ▸ ha) (h2 ▸ hb)
  · rw [h1] at ha
    rw [h2] at hb
    simp only [Option.some.injEq] at ha hb
    omega

theorem rule_enrich_inv (fz : FuzzOracle) (p : ParsedItem) (t : String)
    (h : SalInv p.salary) : SalInv (rule_enrich fz p t).salary := by
  have i1 : SalInv (enrichRole p t.data).salary :=
    salInv_of_eq (enrichRole_salary p t.data) h
  have i2 : SalInv (enrichPosition (enrichRole p t.data) t.data).salary :=
    salInv_of_eq (enrichPosition_salary _ t.data) i1
  have i3 := enrichSalary_inv _ t.data i2
  have i4 : SalInv (enrichRotation (enrichSalary (enrichPosition (enrichRole p t.data)
      t.data) t.data) t.data).salary :=
    salInv_of_eq (enrichRotation_salary _ t.data) i3
  have i5 := salInv_of_eq (enrichLocation_salary _ t.data) i4
  have i6 := salInv_of_eq (enrichEquip_salary _ t.data) i5
  have i7 := salInv_of_eq (enrichSkills_salary _ t.data) i6
  have i8 := salInv_of_eq (enrichContacts_salary _ t.data) i7
  unfold rule_enrich
  exact salInv_of_minmax (normalize_salary_min fz _) (normalize_salary_max fz _) i8

theorem validate_and_impute_inv (fz : FuzzOracle) (p : ParsedItem) (t : String)
    (va : Bool) (vo : Option ParsedItem) (h : SalInv p.salary) :
    SalInv (validate_and_impute fz p t va vo).salary := by
  have i1 : SalInv (rule_impute_geo p).salary :=
    salInv_of_eq (rule_impute_geo_keeps p).1 h
  have i2 : SalInv (rule_impute_schedule (rule_impute_geo p) t.data).salary :=
    salInv_of_eq (rule_impute_schedule_keeps _ t.data).1 i1
  have i3 := rule_fix_salary_inv _ t.data i2
  unfold validate_and_impute
  cases va with
  | false => exact i3
  | true =>
    cases vo with
    | none => exact i3
    | some p2 =>
      exact salInv_of_minmax (normalize_salary_min fz _) (normalize_salary_max fz _)
        (fixRange_inv p2.salary)

/-- C4: every record `parse_one` hands to persistence satisfies the salary
range invariant (`min ≤ max` whenever both bounds are set) — established by
the `Salary` model validator, preserved by normalization, heuristic
enrichment and the validator repair pass — and `_fix_range` repairs an
inverted pair by swapping the bounds rather than rejecting the record. -/
theorem C4_salary_range_invariant :
    (∀ (fz : FuzzOracle) (raw : String) (llm : LLMOutcome) (va : Bool)
       (vo : Option ParsedItem) (r : ParsedItem),
      parse_one fz raw llm va vo = some r →
      ∀ a b : Int, r.salary.min = some a → r.salary.max = some b → a ≤ b) ∧
    (∀ (s : Salary) (a b : Int), s.min = some a → s.max = some b → b < a →
      fixRange s = { s with min := some b, max := some a }) := by
  refine ⟨?_, fixRange_swap⟩
  intro fz raw llm va vo r h
  simp only [parse_one] at h
  split at h
  · exact Option.noConfusion h
  · injection h with hr
    subst hr
    have b0 : SalInv (match llm with
        | LLMOutcome.success item => modelValidate item
        | LLMOutcome.failure sv =>
          buildStub sv (sanitize_text (String.mk (pyStrip raw.data)))).salary := by
      cases llm with
      | success item => exact fixRange_inv item.salary
      | failure sv => exact fixRange_inv _
    exact salInv_of_eq (contactSafetyNet_keeps _ _).1
      (validate_and_impute_inv fz _ _ va vo
        (rule_enrich_inv fz _ _
          (salInv_of_minmax (normalize_salary_min fz _) (normalize_salary_max fz _) b0)))

set_option maxHeartbeats 2000000 in
/-- Witness for C4: a model reply with inverted bounds (min 250000,
max 200000) is repaired to an ordered pair by the pipeline, and `fixRange`
swaps a concrete inverted pair. -/
theorem C4_witness :
    ((parse_one noFuzz "привет"
        (LLMOutcome.success { salary := { min := some 250000, max := some 200000 } })
        false none).getD {}).salary.min = some 200000 ∧
    ((parse_one noFuzz "привет"
        (LLMOutcome.success { salary := { min := some 250000, max := some 200000 } })
        false none).getD {}).salary.max = some 250000 ∧
    (200000 : Int) ≤ 250000 ∧
    fixRange { min := some 250000, max := some 200000, currency := "RUB", period := "month" } =
      { min := some 200000, max := some 250000, currency := "RUB", period := "month" } := by
  refine ⟨by decide, by decide, ?_, ?_⟩
  · exact C4_salary_range_invariant.1 noFuzz "привет"
      (LLMOutcome.success { salary := { min := some 250000, max := some 200000 } })
      false none _ rfl 200000 250000 rfl rfl
  · exact C4_salary_range_invariant.2
      { min := some 250000, max := some 200000, currency := "RUB", period := "month" }
      250000 200000 rfl rfl (by norm_num)

/-! ## C8: the degraded path still persists a record -/

/-- `rule_enrich` never touches `errors` and only clamps `confidence`. -/
theorem rule_enrich_conf_err (fz : FuzzOracle) (p : ParsedItem) (t : String) :
    (rule_enrich fz p t).confidence = .fl (normalizeConf p.confidence) ∧
    (rule_enrich fz p t).errors = p.errors := by
  have c1 := (enrichRole_keeps p t.data).2.1
  have c2 := (enrichPosition_keeps (enrichRole p t.data) t.data).2.2.1.trans c1
  have c3 := (enrichSalary_keeps _ t.data).2.2.1.trans c2
  have c4 := (enrichRotation_keeps _ t.data).2.2.1.trans c3
  have c5 := (enrichLocation_keeps _ t.data).2.2.1.trans c4
  have c6 := (enrichEquip_keeps _ t.data).2.2.1.trans c5
  have c7 := (enrichSkills_keeps _ t.data).2.2.1.trans c6
  have c8 := (enrichContacts_keeps _ t.data).2.1.trans c7
  have e1 := (enrichRole_keeps p t.data).2.2
  have e2 := (enrichPosition_keeps (enrichRole p t.data) t.data).2.2.2.trans e1
  have e3 := (enrichSalary_keeps _ t.data).2.2.2.trans e2
  have e4 := (enrichRotation_keeps _ t.data).2.2.2.trans e3
  have e5 := (enrichLocation_keeps _ t.data).2.2.2.trans e4
  have e6 := (enrichEquip_keeps _ t.data).2.2.2.trans e5
  have e7 := (enrichSkills_keeps _ t.data).2.2.2.trans e6
  have e8 := (enrichContacts_keeps _ t.data).2.2.trans e7
  constructor
  · unfold rule_enrich
    rw [normalize_confidence, c8]
  · unfold rule_enrich
    rw [normalize_errors]
    exact e8

/-- Without a live validator call, `validate_and_impute` preserves
confidence and errors. -/
theorem validate_and_impute_conf_err (fz : FuzzOracle) (p : ParsedItem) (t : String)
    (va : Bool) (vo : Option ParsedItem) (hval : va = false ∨ vo = none) :
    (validate_and_impute fz p t va vo).confidence = p.confidence ∧
    (validate_and_impute fz p t va vo).errors = p.errors := by
  have c1 := (rule_impute_geo_keeps p).2.2.1
  have c2 := (rule_impute_schedule_keeps (rule_impute_geo p) t.data).2.2.1.trans c1
  have c3 := (rule_fix_salary_keeps _ t.data).2.1.trans c2
  have e1 := (rule_impute_geo_keeps p).2.2.2
  have e2 := (rule_impute_schedule_keeps (rule_impute_geo p) t.data).2.2.2.trans e1
  have e3 := (rule_fix_salary_keeps _ t.data).2.2.trans e2
  unfold validate_and_impute
  cases va with
  | false => exact ⟨c3, e3⟩
  | true =>
    cases vo with
    | none => exact ⟨c3, e3⟩
    | some p2 =>
      rcases hval with h | h
      · exact Bool.noConfusion h
      · exact Option.noConfusion h

/-- The clamp fixes 0.3. -/
theorem normalizeConf_q0_3 : normalizeConf (.fl (.num q0_3)) = .num q0_3 := by decide

/-- C8: when model extraction fails (after failover is exhausted) the
orchestrator still returns a record for persistence — built as a stub from
the salvage with `confidence = 0.3` and `"fallback"` in `errors` — for any
input whose sanitized text is nonempty, provided the optional validator
call does not replace the record (unavailable or raising). -/
theorem C8_degraded_path_persists (fz : FuzzOracle) (raw : String) (sv : StubFields)
    (va : Bool) (vo : Option ParsedItem)
    (hne : (sanitize_text (String.mk (pyStrip raw.data))).data ≠ [])
    (hval : va = false ∨ vo = none) :
    ∃ r : ParsedItem, parse_one fz raw (LLMOutcome.failure sv) va vo = some r ∧
      r.confidence = .fl (.num q0_3) ∧ "fallback" ∈ r.errors := by
  have hE : (sanitize_text (String.mk (pyStrip raw.data))).data.isEmpty = false := by
    cases hsd : (sanitize_text (String.mk (pyStrip raw.data))).data with
    | nil => exact absurd hsd hne
    | cons c cs => rfl
  simp only [parse_one, hE, Bool.false_eq_true, if_false]
  set T := sanitize_text (String.mk (pyStrip raw.data)) with hT
  refine ⟨_, rfl, ?_, ?_⟩
  · have h2 : (normalize fz (buildStub sv T)).confidence = .fl (.num q0_3) := by
      show PyVal.fl (normalizeConf (PyVal.fl (PyF.num q0_3))) = PyVal.fl (PyF.num q0_3)
      rw [normalizeConf_q0_3]
    have h3 := (rule_enrich_conf_err fz (normalize fz (buildStub sv T)) T).1
    rw [h2, normalizeConf_q0_3] at h3
    have h4 := (validate_and_impute_conf_err fz
      (rule_enrich fz (normalize fz (buildStub sv T)) T) T va vo hval).1.trans h3
    exact ((contactSafetyNet_keeps
      (validate_and_impute fz (rule_enrich fz (normalize fz (buildStub sv T)) T) T va vo)
      T.data).2.1).trans h4
  · have h2 : (normalize fz (buildStub sv T)).errors = ["fallback"] := by
      rw [normalize_errors]
      rfl
    have h3 := (rule_enrich_conf_err fz (normalize fz (buildStub sv T)) T).2.trans h2
    have h4 := (validate_and_impute_conf_err fz
      (rule_enrich fz (normalize fz (buildStub sv T)) T) T va vo hval).2.trans h3
    have h5 := ((contactSafetyNet_keeps
      (validate_and_impute fz (rule_enrich fz (normalize fz (buildStub sv T)) T) T va vo)
      T.data).2.2).trans h4
    rw [h5]
    simp

/-- Witness for C8 at a concrete degraded run: nothing salvaged, validator
off. -/
theorem C8_witness :
    ((parse_one noFuzz "привет" (LLMOutcome.failure {}) false none).getD {}).confidence =
      .fl (.num q0_3) ∧
    "fallback" ∈ ((parse_one noFuzz "привет" (LLMOutcome.failure {}) false none).getD
      {}).errors := by
  obtain ⟨r, hr, hc, he⟩ := C8_degraded_path_persists noFuzz "привет" {} false none
    (by decide) (Or.inl rfl)
  rw [hr]
  exact ⟨hc, he⟩

/-! ## C9: canonicalizer list handling (corrected: only equipment/skills use
the fuzzy threshold-80 mapping and the cap of 8; employment/schedule use an
exact lowercased dictionary lookup, deduped but uncapped) -/

theorem dedupFSAux_nodup (l : List String) :
    ∀ seen, (dedupFSAux seen l).Nodup ∧ ∀ x ∈ dedupFSAux seen l, x ∉ seen := by
  induction l with
  | nil => intro seen; exact ⟨List.nodup_nil, by simp [dedupFSAux]⟩
  | cons y ys ih =>
    intro seen
    by_cases hy : y ∈ seen
    · simpa [dedupFSAux, hy] using ih seen
    · have h := ih (y :: seen)
      refine ⟨?_, ?_⟩
      · simp only [dedupFSAux, hy, if_false]
        refine List.Nodup.cons ?_ h.1
        intro hmem
        exact (h.2 y hmem) (List.mem_cons_self y seen)
      · intro x hx
        simp only [dedupFSAux, hy, if_false, List.mem_cons] at hx
        rcases hx with rfl | hx
        · exact hy
        · intro hxs
          exact (h.2 x hx) (List.mem_cons_of_mem y hxs)

theorem dedupFS_nodup (l : List String) : (dedupFS l).Nodup :=
  (dedupFSAux_nodup l []).1

theorem dedupFSAux_sublen (l : List String) :
    ∀ seen, (dedupFSAux seen l).length ≤ l.length := by
  induction l with
  | nil => intro seen; simp [dedupFSAux]
  | cons y ys ih =>
    intro seen
    by_cases hy : y ∈ seen
    · simp only [dedupFSAux, hy, if_true]
      exact le_trans (ih seen) (Nat.le_succ _)
    · simp only [dedupFSAux, hy, if_false, List.length_cons]
      exact Nat.succ_le_succ (ih (y :: seen))

theorem dedupFSAux_subset (l : List String) :
    ∀ seen x, x ∈ dedupFSAux seen l → x ∈ l := by
  induction l with
  | nil => intro seen x hx; simpa [dedupFSAux] using hx
  | cons y ys ih =>
    intro seen x hx
    by_cases hy : y ∈ seen
    · simp only [dedupFSAux, hy, if_true] at hx
      exact List.mem_cons_of_mem y (ih seen x hx)
    · simp only [dedupFSAux, hy, if_false, List.mem_cons] at hx
      rcases hx with rfl | hx
      · exact List.mem_cons_self x ys
      · exact List.mem_cons_of_mem y (ih (y :: seen) x hx)

theorem canonLoop_length (fz : FuzzOracle) (univ : List String) (limit : Nat)
    (vals : List String) :
    ∀ out : List String, out.length < limit →
      (canonLoop fz univ limit vals out).length ≤ limit := by
  induction vals with
  | nil => intro out h; exact le_of_lt h
  | cons v vs ih =>
    intro out h
    simp only [canonLoop]
    split
    · exact ih out h
    · split
      · next hbrk => simpa using h
      · next hbrk =>
        exact ih _ (lt_of_not_ge fun hge => hbrk (by simpa using hge))

theorem canonLoop_mem (fz : FuzzOracle) (univ : List String) (limit : Nat)
    (vals : List String) :
    ∀ (out : List String) (x : String), x ∈ canonLoop fz univ limit vals out →
      x ∈ out ∨ ∃ v ∈ vals, x = canonToken fz univ (String.mk (pyStrip v.data)) := by
  induction vals with
  | nil => intro out x hx; exact Or.inl hx
  | cons v vs ih =>
    intro out x hx
    simp only [canonLoop] at hx
    split at hx
    · rcases ih out x hx with h | ⟨w, hw, he⟩
      · exact Or.inl h
      · exact Or.inr ⟨w, List.mem_cons_of_mem v hw, he⟩
    · split at hx
      · rcases List.mem_append.mp hx with h | h
        · exact Or.inl h
        · refine Or.inr ⟨v, List.mem_cons_self v vs, ?_⟩
          simpa using h
      · rcases ih _ x hx with h | ⟨w, hw, he⟩
        · rcases List.mem_append.mp h with h' | h'
          · exact Or.inl h'
          · refine Or.inr ⟨v, List.mem_cons_self v vs, ?_⟩
            simpa using h'
        · exact Or.inr ⟨w, List.mem_cons_of_mem v hw, he⟩

/-- Counterexample to C9 as stated: the `employment` list is not truncated
to 8 entries — nine distinct free-form employment tokens all survive
`normalize`. -/
theorem C9_counterexample :
    List.length
      (normalize noFuzz
        { employment := ["w1", "w2", "w3", "w4", "w5", "w6", "w7", "w8", "w9"] }).employment
      = 9 ∧ ¬ (9 ≤ 8) := by
  exact ⟨rfl, by decide⟩

/-- C9 (amended): `equipment` and `skills` go through `_canon_list`
(fuzzy best match accepted only at score ≥ 80, else the token is kept;
capped at 8 entries before dedup; dedup keeps first-seen order, so the
result has no duplicates), while `employment` and `schedule` are mapped by
exact dictionary lookup of the lowercased token — independent of the fuzzy
matcher — and deduped (first-seen) without any cap. -/
theorem C9_canonicalizer_lists :
    (∀ (fz : FuzzOracle) (vals univ : List String), (canon_list fz vals univ).Nodup) ∧
    (∀ (fz : FuzzOracle) (vals univ : List String), (canon_list fz vals univ).length ≤ 8) ∧
    (∀ (fz : FuzzOracle) (vals univ : List String) (x : String), x ∈ canon_list fz vals univ →
      ∃ v ∈ vals, x = canonToken fz univ (String.mk (pyStrip v.data))) ∧
    (∀ (fz : FuzzOracle) (univ : List String) (v best : String) (sc : ℚ),
      fz v univ = some (best, sc) →
      canonToken fz univ v = if 80 ≤ sc then best else v) ∧
    (∀ (fz fz' : FuzzOracle) (p : ParsedItem),
      (normalize fz p).employment = (normalize fz' p).employment ∧
      (normalize fz p).schedule = (normalize fz' p).schedule) ∧
    (∀ (fz : FuzzOracle) (p : ParsedItem),
      (normalize fz p).employment.Nodup ∧ (normalize fz p).schedule.Nodup) := by
  refine ⟨?_, ?_, ?_, ?_, ?_, ?_⟩
  · intro fz vals univ
    exact dedupFS_nodup _
  · intro fz vals univ
    exact le_trans (dedupFSAux_sublen _ [])
      (canonLoop_length fz univ 8 vals [] (by norm_num))
  · intro fz vals univ x hx
    rcases canonLoop_mem fz univ 8 vals [] x (dedupFSAux_subset _ [] x hx) with h | h
    · exact absurd h (List.not_mem_nil x)
    · exact h
  · intro fz univ v best sc h
    simp [canonToken, h]
  · intro fz fz' p
    exact ⟨rfl, rfl⟩
  · intro fz p
    constructor
    · show (canonMapList CANON_EMPLOYMENT p.employment).Nodup
      unfold canonMapList
      split
      · next he => simpa [List.isEmpty_iff.mp (by assumption)] using List.nodup_nil
      · exact dedupFS_nodup _
    · show (canonMapList CANON_SCHEDULE p.schedule).Nodup
      unfold canonMapList
      split
      · next he => simpa [List.isEmpty_iff.mp (by assumption)] using List.nodup_nil
      · exact dedupFS_nodup _

/-- Witness for C9 (amended) at concrete inputs: a score of 90 clears the
threshold and maps the token to the vocabulary entry; a below-threshold
score keeps the token verbatim. -/
theorem C9_witness :
    canonToken (fun _ _ => some ("GNSS", (90 : ℚ))) CANON_EQUIP "гнсс" = "GNSS" ∧
    canonToken (fun _ _ => some ("GNSS", (70 : ℚ))) CANON_EQUIP "гнсс" = "гнсс" ∧
    (∃ v ∈ ["гнсс"], "GNSS" =
      canonToken (fun _ _ => some ("GNSS", (90 : ℚ))) CANON_EQUIP
        (String.mk (pyStrip v.data))) := by
  refine ⟨?_, ?_, ?_⟩
  · rw [C9_canonicalizer_lists.2.2.2.1 (fun _ _ => some ("GNSS", (90 : ℚ)))
      CANON_EQUIP "гнсс" "GNSS" 90 rfl]
    norm_num
  · rw [C9_canonicalizer_lists.2.2.2.1 (fun _ _ => some ("GNSS", (70 : ℚ)))
      CANON_EQUIP "гнсс" "GNSS" 70 rfl]
    norm_num
  · exact C9_canonicalizer_lists.2.2.1 (fun _ _ => some ("GNSS", (90 : ℚ)))
      ["гнсс"] CANON_EQUIP "GNSS" (by decide)

end GeoJobs
